import Mathlib

/-!
Verification of the CMIP6-to-MET extraction and assembly pipeline
(`create_met_file`, `extract_daily_data_from_netcdf`,
`calculate_tav_amp`, `calculate_saturation_vapor_pressure`,
`calculate_vapor_pressure`).

The Python source is shallowly embedded: the Gregorian calendar is modelled
by explicit day counting, pandas DataFrames by lists of records, and the
fixed-width MET text format by lists of characters.  Numeric values written
at one decimal place are modelled exactly as integer tenths; vapor-pressure
arithmetic is modelled over the reals.
-/

namespace Anameka

/-! ## Gregorian calendar core

`pd.date_range` and `dt.dayofyear` follow the proleptic Gregorian calendar;
we model a calendar date either as an absolute day number (days since the
epoch 0000-01-01) or as a (year, zero-based day-of-year) pair. -/

/-- Gregorian leap-year test, as used by `calendar.isleap` and pandas. -/
def isLeap (y : ℕ) : Bool := (y % 4 == 0 && y % 100 != 0) || (y % 400 == 0)

/-- Number of days in year `y` (366 in a leap year, else 365). -/
def daysInYear (y : ℕ) : ℕ := if isLeap y then 366 else 365

/-- Absolute day number of January 1 of year `y`: total days in years
`0, 1, …, y-1` (closed Gregorian form; the recurrence
`daysBeforeYear (y+1) = daysBeforeYear y + daysInYear y` is proved below). -/
def daysBeforeYear (y : ℕ) : ℕ :=
  365 * y + (y + 3) / 4 - (y + 99) / 100 + (y + 399) / 400

/-- A calendar date as a year together with a zero-based day of year. -/
structure Date where
  year : ℕ
  doy : ℕ
  deriving DecidableEq, Repr

/-- A date is valid when its day-of-year index is within its year. -/
def Date.valid (d : Date) : Prop := d.doy < daysInYear d.year

instance (d : Date) : Decidable d.valid := by
  unfold Date.valid; infer_instance

/-- Absolute day number of a date. -/
def Date.abs (d : Date) : ℕ := daysBeforeYear d.year + d.doy

/-- The list of absolute day numbers of all days of year `y`, in order. -/
def yearDays (y : ℕ) : List ℕ :=
  (List.range (daysInYear y)).map (fun i => daysBeforeYear y + i)

/-- `pd.date_range(start, periods := n, freq := 'D')` with `start` given as an
absolute day number: `n` consecutive days beginning at `start`. -/
def dateRange (start n : ℕ) : List ℕ :=
  (List.range n).map (fun i => start + i)

set_option maxHeartbeats 1000000 in
theorem daysBeforeYear_succ (y : ℕ) :
    daysBeforeYear (y + 1) = daysBeforeYear y + daysInYear y := by
  have hsplit : (y % 4 = 0 ∧ y % 100 ≠ 0 ∨ y % 400 = 0) ∨
      (¬(y % 4 = 0 ∧ y % 100 ≠ 0) ∧ y % 400 ≠ 0) := by tauto
  unfold daysBeforeYear daysInYear isLeap
  rcases hsplit with h | h
  · have hleap : ((y % 4 == 0 && y % 100 != 0) || (y % 400 == 0)) = true := by
      rcases h with ⟨h4, h100⟩ | h400
      · simp [h4, h100]
      · simp [h400]
    rw [if_pos hleap]
    rcases h with ⟨h4, h100⟩ | h400 <;> omega
  · have hleap : ((y % 4 == 0 && y % 100 != 0) || (y % 400 == 0)) = false := by
      rcases h with ⟨hh, h400⟩
      by_cases h4 : y % 4 = 0
      · have h100 : y % 100 = 0 := by tauto
        simp [h4, h100, h400]
      · simp [h4, h400]
    rw [if_neg (by simp [hleap])]
    rcases h with ⟨hh, h400⟩
    by_cases h4 : y % 4 = 0
    · have h100 : y % 100 = 0 := by tauto
      clear hh hleap
      omega
    · clear hh hleap
      omega

theorem yearDays_length (y : ℕ) : (yearDays y).length = daysInYear y := by
  simp [yearDays]

theorem dateRange_length (start n : ℕ) : (dateRange start n).length = n := by
  simp [dateRange]

theorem yearDays_eq_dateRange (y : ℕ) :
    yearDays y = dateRange (daysBeforeYear y) (daysInYear y) := rfl

theorem dateRange_append (start m n : ℕ) :
    dateRange start m ++ dateRange (start + m) n = dateRange start (m + n) := by
  unfold dateRange
  rw [List.range_add, List.map_append, List.map_map]
  congr 1
  apply List.map_congr_left
  intro i _
  simp; omega

theorem dateRange_nodup (start n : ℕ) : (dateRange start n).Nodup := by
  unfold dateRange
  exact (List.nodup_range n).map (fun a b h => by omega)

theorem mem_dateRange {start n d : ℕ} :
    d ∈ dateRange start n ↔ start ≤ d ∧ d < start + n := by
  unfold dateRange
  simp only [List.mem_map, List.mem_range]
  constructor
  · rintro ⟨i, hi, rfl⟩; omega
  · rintro ⟨h1, h2⟩; exact ⟨d - start, by omega, by omega⟩

/-! ## Derived Variable Calculator

`calculate_saturation_vapor_pressure` and the row-wise computation inside
`calculate_vapor_pressure`: after the merge on date, each merged row carries
the humidity `value`, `value_max` and `value_min`; the columns `tmean`,
`es_kpa`, `ea_kpa` and `vp` are computed element-wise as below. -/

/-- `calculate_saturation_vapor_pressure`: SILO saturation vapor pressure
(kPa) at temperature `t` (°C): `0.611 * np.exp(17.27 * t / (t + 237.3))`. -/
noncomputable def calculate_saturation_vapor_pressure (t : ℝ) : ℝ :=
  0.611 * Real.exp (17.27 * t / (t + 237.3))

/-- The `tmean` column: `(value_max + value_min) / 2.0`. -/
noncomputable def vpTmean (vmax vmin : ℝ) : ℝ := (vmax + vmin) / 2.0

/-- The `es_kpa` column: saturation vapor pressure at the mean temperature. -/
noncomputable def vpEsKpa (vmax vmin : ℝ) : ℝ :=
  calculate_saturation_vapor_pressure (vpTmean vmax vmin)

/-- The `ea_kpa` column: `(value / 100.0) * es_kpa`, `value` being the
relative humidity in percent. -/
noncomputable def vpEaKpa (hurs vmax vmin : ℝ) : ℝ :=
  hurs / 100.0 * vpEsKpa vmax vmin

/-- The `vp` column of `calculate_vapor_pressure`: `10.0 * ea_kpa`
(kPa → hPa). -/
noncomputable def calculate_vapor_pressure (hurs vmax vmin : ℝ) : ℝ :=
  10.0 * vpEaKpa hurs vmax vmin

/-! ## `calculate_tav_amp`

The input DataFrame is modelled as a list of daily rows carrying the
calendar year and month of the row's date index together with the `maxt`
and `mint` columns. -/

/-- One row of the temperature table passed to `calculate_tav_amp`. -/
structure TempRow where
  year : ℕ
  month : ℕ
  maxt : ℚ
  mint : ℚ
  deriving DecidableEq, Repr

/-- The `tmean` column: `(maxt + mint) / 2.0`. -/
def TempRow.tmean (r : TempRow) : ℚ := (r.maxt + r.mint) / 2

/-- Pandas `.mean()` over a column, as sum divided by count. -/
def listMean (xs : List ℚ) : ℚ := xs.sum / xs.length

/-- The rows of a given calendar month (any year). -/
def monthRows (l : List TempRow) (m : ℕ) : List TempRow :=
  l.filter (fun r => r.month == m)

/-- The `groupby(['year','month'])['tmean'].mean()` entry for key `(y, m)`. -/
def monthlyMean (l : List TempRow) (y m : ℕ) : ℚ :=
  listMean ((l.filter (fun r => r.year == y && r.month == m)).map TempRow.tmean)

/-- The distinct years having a row in month `m`: the group keys with month
component `m`, i.e. the index of `monthly_means[month == m]`. -/
def yearsWithMonth (l : List TempRow) (m : ℕ) : List ℕ :=
  ((l.filter (fun r => r.month == m)).map TempRow.year).dedup

/-- `monthly_means[monthly_means.index.get_level_values('month') == m].mean()`:
the mean over the years present of the month-`m` monthly means. -/
def monthMeansMean (l : List TempRow) (m : ℕ) : ℚ :=
  listMean ((yearsWithMonth l m).map (fun y => monthlyMean l y m))

/-- The `tav` result: mean of the `tmean` column over the whole series. -/
def tav (l : List TempRow) : ℚ := listMean (l.map TempRow.tmean)

/-- The `amp` result: `(jan_means - jul_means) / 2.0`. -/
def amp (l : List TempRow) : ℚ :=
  (monthMeansMean l 1 - monthMeansMean l 7) / 2

theorem filter_year_monthRows (l : List TempRow) (y m : ℕ) :
    (monthRows l m).filter (fun r => r.year == y)
      = l.filter (fun r => r.year == y && r.month == m) := by
  unfold monthRows
  rw [List.filter_filter]

theorem monthlyMean_eq (l : List TempRow) (y m : ℕ) :
    monthlyMean l y m
      = listMean (((monthRows l m).filter (fun r => r.year == y)).map TempRow.tmean) := by
  rw [filter_year_monthRows]; rfl

theorem yearsWithMonth_eq (l : List TempRow) (m : ℕ) :
    yearsWithMonth l m = ((monthRows l m).map TempRow.year).dedup := rfl

/-- `monthMeansMean l m` reads only the rows of month `m`. -/
theorem monthMeansMean_congr {l₁ l₂ : List TempRow} {m : ℕ}
    (h : monthRows l₁ m = monthRows l₂ m) :
    monthMeansMean l₁ m = monthMeansMean l₂ m := by
  unfold monthMeansMean
  rw [yearsWithMonth_eq, yearsWithMonth_eq, h]
  congr 1
  apply List.map_congr_left
  intro y _
  rw [monthlyMean_eq, monthlyMean_eq, h]

/-- C4: for every day with relative humidity `rh` (percent) and mean
temperature `T = (maxt + mint)/2` (°C), the reported vapor pressure equals
`10 * (rh/100) * 0.611 * exp(17.27*T/(T+237.3))` hPa; with `rh = 100` it
equals `10 * 0.611 * exp(17.27*T/(T+237.3))`, exactly. -/
theorem C4_vapor_pressure_formula (rh vmax vmin : ℝ) :
    calculate_vapor_pressure rh vmax vmin
        = 10 * (rh / 100) * 0.611
            * Real.exp (17.27 * ((vmax + vmin) / 2) / ((vmax + vmin) / 2 + 237.3))
      ∧ calculate_vapor_pressure 100 vmax vmin
        = 10 * 0.611
            * Real.exp (17.27 * ((vmax + vmin) / 2) / ((vmax + vmin) / 2 + 237.3)) := by
  unfold calculate_vapor_pressure vpEaKpa vpEsKpa
    calculate_saturation_vapor_pressure vpTmean
  norm_num
  constructor <;> ring

/-- C5: the annual amplitude equals (mean of all January monthly-mean
temperatures minus mean of all July monthly-mean temperatures) divided by 2;
it depends only on the January and July rows of the table; and when the
January monthly mean is 28.0 and the July monthly mean is 12.0, `amp = 8.0`. -/
theorem C5_amp_january_july (l₁ l₂ : List TempRow)
    (h1 : monthRows l₁ 1 = monthRows l₂ 1)
    (h7 : monthRows l₁ 7 = monthRows l₂ 7) :
    amp l₁ = (monthMeansMean l₁ 1 - monthMeansMean l₁ 7) / 2
      ∧ amp l₁ = amp l₂
      ∧ (monthMeansMean l₁ 1 = 28 → monthMeansMean l₁ 7 = 12 → amp l₁ = 8) := by
  refine ⟨rfl, ?_, ?_⟩
  · unfold amp
    rw [monthMeansMean_congr h1, monthMeansMean_congr h7]
  · intro ha hb
    unfold amp
    rw [ha, hb]
    norm_num

/-- Witness for C5 at a concrete three-row table: January mean 28, July mean
12 give `amp = 8`, and changing a March row does not change `amp`. -/
theorem C5_amp_january_july_witness :
    amp [⟨2020, 1, 30, 26⟩, ⟨2020, 7, 14, 10⟩, ⟨2020, 3, 20, 20⟩] = 8
      ∧ amp [⟨2020, 1, 30, 26⟩, ⟨2020, 7, 14, 10⟩, ⟨2020, 3, 20, 20⟩]
          = amp [⟨2020, 1, 30, 26⟩, ⟨2020, 7, 14, 10⟩, ⟨2020, 3, 0, 5⟩] := by
  have h := C5_amp_january_july
    [⟨2020, 1, 30, 26⟩, ⟨2020, 7, 14, 10⟩, ⟨2020, 3, 20, 20⟩]
    [⟨2020, 1, 30, 26⟩, ⟨2020, 7, 14, 10⟩, ⟨2020, 3, 0, 5⟩]
    (by decide) (by decide)
  refine ⟨h.2.2 ?_ ?_, h.2.1⟩ <;>
    norm_num [monthMeansMean, monthlyMean, yearsWithMonth, listMean, TempRow.tmean]

/-! ## Grid Locator

`np.abs(axis - target).argmin()` on each 1-D coordinate axis: the first
index attaining the minimal absolute difference to the target.  Axis values
are modelled as rationals. -/

/-- The minimal absolute difference `min |x - t|` over a nonempty axis. -/
def bestDist (t : ℚ) : List ℚ → ℚ
  | [] => 0
  | [x] => |x - t|
  | x :: y :: xs => min |x - t| (bestDist t (y :: xs))

/-- `np.abs(axis - t).argmin()`: index of the first element minimizing the
absolute difference to `t` (0 on an empty axis). -/
def argminAbs (t : ℚ) : List ℚ → ℕ
  | [] => 0
  | [_] => 0
  | x :: y :: xs => if |x - t| ≤ bestDist t (y :: xs) then 0 else argminAbs t (y :: xs) + 1

/-- The per-axis pair `(lat_idx, lon_idx)` computed by
`extract_daily_data_from_netcdf`, each axis treated independently. -/
def gridLocator (lats lons : List ℚ) (tlat tlon : ℚ) : ℕ × ℕ :=
  (argminAbs tlat lats, argminAbs tlon lons)

theorem bestDist_le (t : ℚ) :
    ∀ (xs : List ℚ) (i : ℕ), i < xs.length →
      bestDist t xs ≤ |xs.getD i 0 - t|
  | [], i, hi => absurd hi (by simp)
  | [_], 0, _ => le_refl _
  | [_], _ + 1, hi => absurd hi (by simp)
  | _ :: y :: xs, 0, _ => min_le_left _ _
  | x :: y :: xs, i + 1, hi => by
      rw [List.getD_cons_succ]
      exact le_trans (min_le_right _ _)
        (bestDist_le t (y :: xs) i (by simpa using hi))

theorem argminAbs_lt_length (t : ℚ) :
    ∀ (xs : List ℚ), xs ≠ [] → argminAbs t xs < xs.length
  | [], h => absurd rfl h
  | [_], _ => Nat.zero_lt_one
  | x :: y :: xs, _ => by
      unfold argminAbs
      split
      · simp
      · have := argminAbs_lt_length t (y :: xs) (by simp)
        simpa using Nat.succ_lt_succ this

theorem argminAbs_getD (t : ℚ) :
    ∀ (xs : List ℚ), xs ≠ [] →
      |xs.getD (argminAbs t xs) 0 - t| = bestDist t xs
  | [], h => absurd rfl h
  | [_], _ => rfl
  | x :: y :: xs, _ => by
      by_cases hle : |x - t| ≤ bestDist t (y :: xs)
      · have hidx : argminAbs t (x :: y :: xs) = 0 := by
          unfold argminAbs; simp [hle]
        rw [hidx, List.getD_cons_zero]
        exact ((min_eq_left hle).symm : |x - t| = bestDist t (x :: y :: xs))
      · have hidx : argminAbs t (x :: y :: xs) = argminAbs t (y :: xs) + 1 := by
          simp only [argminAbs]; rw [if_neg hle]
        have hmin : bestDist t (x :: y :: xs) = bestDist t (y :: xs) := by
          have h := le_of_lt (lt_of_not_le hle)
          show min |x - t| (bestDist t (y :: xs)) = bestDist t (y :: xs)
          exact min_eq_right h
        rw [hidx, List.getD_cons_succ, hmin]
        exact argminAbs_getD t (y :: xs) (by simp)

theorem argminAbs_first (t : ℚ) :
    ∀ (xs : List ℚ) (j : ℕ), j < argminAbs t xs →
      bestDist t xs < |xs.getD j 0 - t|
  | [], _, hlt => absurd hlt (by simp [argminAbs])
  | [_], _, hlt => absurd hlt (by simp [argminAbs])
  | x :: y :: xs, j, hlt => by
      by_cases hle : |x - t| ≤ bestDist t (y :: xs)
      · exfalso
        have hidx : argminAbs t (x :: y :: xs) = 0 := by
          simp only [argminAbs]; rw [if_pos hle]
        rw [hidx] at hlt
        exact Nat.not_lt_zero j hlt
      · have hidx : argminAbs t (x :: y :: xs) = argminAbs t (y :: xs) + 1 := by
          simp only [argminAbs]; rw [if_neg hle]
        have hx : bestDist t (y :: xs) < |x - t| := lt_of_not_le hle
        have hmin : bestDist t (x :: y :: xs) = bestDist t (y :: xs) := by
          show min |x - t| (bestDist t (y :: xs)) = bestDist t (y :: xs)
          exact min_eq_right (le_of_lt hx)
        rw [hidx] at hlt
        rw [hmin]
        match j with
        | 0 => exact hx
        | j + 1 =>
            rw [List.getD_cons_succ]
            exact argminAbs_first t (y :: xs) j (by omega)

/-- C8: for every target coordinate and every pair of 1-D latitude and
longitude axes, the Grid Locator returns, independently on each axis, the
index of the axis value minimizing the absolute difference to the target,
and when several indices attain the minimum it returns the first (lowest)
such index. -/
theorem C8_grid_locator_nearest (lats lons : List ℚ) (tlat tlon : ℚ)
    (hla : lats ≠ []) (hlo : lons ≠ []) :
    (gridLocator lats lons tlat tlon).1 < lats.length
      ∧ (gridLocator lats lons tlat tlon).2 < lons.length
      ∧ (∀ i < lats.length,
          |lats.getD (gridLocator lats lons tlat tlon).1 0 - tlat|
            ≤ |lats.getD i 0 - tlat|)
      ∧ (∀ j < lons.length,
          |lons.getD (gridLocator lats lons tlat tlon).2 0 - tlon|
            ≤ |lons.getD j 0 - tlon|)
      ∧ (∀ i < (gridLocator lats lons tlat tlon).1,
          |lats.getD (gridLocator lats lons tlat tlon).1 0 - tlat|
            < |lats.getD i 0 - tlat|)
      ∧ (∀ j < (gridLocator lats lons tlat tlon).2,
          |lons.getD (gridLocator lats lons tlat tlon).2 0 - tlon|
            < |lons.getD j 0 - tlon|) := by
  unfold gridLocator
  refine ⟨argminAbs_lt_length tlat lats hla, argminAbs_lt_length tlon lons hlo,
    ?_, ?_, ?_, ?_⟩
  · intro i hi
    rw [argminAbs_getD tlat lats hla]
    exact bestDist_le tlat lats i hi
  · intro j hj
    rw [argminAbs_getD tlon lons hlo]
    exact bestDist_le tlon lons j hj
  · intro i hi
    rw [argminAbs_getD tlat lats hla]
    exact argminAbs_first tlat lats i hi
  · intro j hj
    rw [argminAbs_getD tlon lons hlo]
    exact argminAbs_first tlon lons j hj

/-- Witness for C8 on concrete axes `lats = [0, 2, 1]`, `lons = [5, 3]`,
target `(0.9, 3.1)`: the locator picks indices `(2, 1)`. -/
theorem C8_grid_locator_nearest_witness :
    gridLocator [0, 2, 1] [5, 3] (9/10) (31/10) = (2, 1)
      ∧ (gridLocator [0, 2, 1] [5, 3] (9/10) (31/10)).1 < 3 := by
  have h := C8_grid_locator_nearest [0, 2, 1] [5, 3] (9/10) (31/10)
    (by simp) (by simp)
  refine ⟨?_, by simpa using h.1⟩
  norm_num [gridLocator, argminAbs, bestDist, abs]

/-! ## Grid selection and the distance tolerance

In `extract_daily_data_from_netcdf` the tolerance enters only the
`if abs(actual_lat - target_lat) > tolerance or …` warning branch: the
cached indices are computed before the check and are reused unchanged, and
no exception is raised.  `none` is returned by the function only when the
variable or the coordinate structure cannot be found — never because of the
tolerance. -/

/-- The out-of-tolerance condition guarding the printed warning. -/
def outOfTolerance (lats lons : List ℚ) (tlat tlon tol : ℚ) : Bool :=
  decide (|lats.getD (argminAbs tlat lats) 0 - tlat| > tol)
    || decide (|lons.getD (argminAbs tlon lons) 0 - tlon| > tol)

/-- The resolved grid cell together with the warning flag. -/
structure GridSelection where
  latIdx : ℕ
  lonIdx : ℕ
  warned : Bool
  deriving DecidableEq, Repr

/-- Grid-point selection as performed on the sample file: the nearest cell
is always selected; the tolerance only sets the warning flag. -/
def selectGridPoint (lats lons : List ℚ) (tlat tlon tol : ℚ) :
    Option GridSelection :=
  some { latIdx := argminAbs tlat lats
         lonIdx := argminAbs tlon lons
         warned := outOfTolerance lats lons tlat tlon tol }

/-- The daily series extracted from the selected cell: every file is sliced
at the cached `(lat_idx, lon_idx)`, so the series is a function of the
selected indices only. -/
def extractAtSelection (data : ℕ → ℕ → List ℚ) (s : GridSelection) : List ℚ :=
  data s.latIdx s.lonIdx

/-- The extraction outcome as a function of the tolerance. -/
def extractWithTolerance (data : ℕ → ℕ → List ℚ)
    (lats lons : List ℚ) (tlat tlon tol : ℚ) : Option (List ℚ) :=
  (selectGridPoint lats lons tlat tlon tol).map (extractAtSelection data)

/-- C10: when the nearest grid point lies farther than the tolerance from
the requested coordinate, no error is raised (the selection still succeeds),
the condition is surfaced only as the warning flag, and the returned daily
series is identical to the one returned with any tolerance large enough to
accept that point. -/
theorem C10_tolerance_only_warns (data : ℕ → ℕ → List ℚ)
    (lats lons : List ℚ) (tlat tlon tol tol' : ℚ)
    (hfar : outOfTolerance lats lons tlat tlon tol = true)
    (hnear : outOfTolerance lats lons tlat tlon tol' = false) :
    (∃ s, selectGridPoint lats lons tlat tlon tol = some s ∧ s.warned = true)
      ∧ extractWithTolerance data lats lons tlat tlon tol
          = extractWithTolerance data lats lons tlat tlon tol' := by
  constructor
  · exact ⟨_, rfl, hfar⟩
  · unfold extractWithTolerance selectGridPoint
    simp [extractAtSelection]

/-- Witness for C10: axes `[0, 2]`/`[3]`, target `(0.5, 3)`, tolerance
`1/4` (too small: the nearest latitude 0 is `1/2` away) versus `1`. -/
theorem C10_tolerance_only_warns_witness :
    (∃ s, selectGridPoint [0, 2] [3] (1/2) 3 (1/4) = some s ∧ s.warned = true)
      ∧ extractWithTolerance (fun i j => [(i : ℚ), (j : ℚ)])
            [0, 2] [3] (1/2) 3 (1/4)
          = extractWithTolerance (fun i j => [(i : ℚ), (j : ℚ)])
            [0, 2] [3] (1/2) 3 1 := by
  apply C10_tolerance_only_warns
  · norm_num [outOfTolerance, argminAbs, bestDist, abs]
  · norm_num [outOfTolerance, argminAbs, bestDist, abs]

/-! ## Time-axis fallback from the filename

Method 2 of the time-axis resolution in `extract_daily_data_from_netcdf`:
`re.findall(r'\d{4}', filename)` produces the 4-digit groups of the
filename in order; the first candidate inside `[2000, 2100]` is taken as
the year, and `pd.date_range(f'{year}-01-01', periods := n, freq := 'D')`
generates the dates; with no candidate the fallback year 2035 is used. -/

/-- The year inferred from the filename's 4-digit groups: the first
candidate `y` with `2000 <= y <= 2100`. -/
def inferYear (cands : List ℕ) : Option ℕ :=
  cands.find? (fun y => 2000 ≤ y && y ≤ 2100)

/-- The generated date sequence for a file with `n` data values and no
usable time axis, as absolute day numbers. -/
def filenameDates (cands : List ℕ) (n : ℕ) : List ℕ :=
  match inferYear cands with
  | some y => dateRange (daysBeforeYear y) n
  | none => dateRange (daysBeforeYear 2035) n

theorem dateRange_getD (start n i : ℕ) (hi : i < n) :
    (dateRange start n).getD i 0 = start + i := by
  unfold dateRange
  rw [List.getD_eq_getElem?_getD, List.getElem?_map, List.getElem?_range hi]
  rfl

/-- C3: for a source file with `n` data values, no usable time axis, and a
filename whose first in-range 4-digit group is the year `Y` with
`2000 ≤ Y ≤ 2100`, the generated date sequence is exactly `n` consecutive
calendar days starting at `Y-01-01`; it consists of the 366 days of a
366-day year `Y` if and only if `Y` is a leap year and `n = 366`. -/
theorem C3_filename_year_dates (cands : List ℕ) (n Y : ℕ)
    (h : inferYear cands = some Y) :
    (2000 ≤ Y ∧ Y ≤ 2100 ∧ Y ∈ cands)
      ∧ filenameDates cands n = dateRange (daysBeforeYear Y) n
      ∧ (filenameDates cands n).length = n
      ∧ ((filenameDates cands n).headD 0 = daysBeforeYear Y ∨ n = 0)
      ∧ (∀ i, i + 1 < n →
          (filenameDates cands n).getD (i + 1) 0
            = (filenameDates cands n).getD i 0 + 1)
      ∧ ((filenameDates cands n = yearDays Y ∧ daysInYear Y = 366)
          ↔ (isLeap Y = true ∧ n = 366)) := by
  have h' : cands.find? (fun y => 2000 ≤ y && y ≤ 2100) = some Y := h
  have hrange := List.find?_some h'
  simp only [Bool.and_eq_true, decide_eq_true_eq] at hrange
  have hmem : Y ∈ cands := List.mem_of_find?_eq_some h'
  have heq : filenameDates cands n = dateRange (daysBeforeYear Y) n := by
    unfold filenameDates
    rw [h]
  refine ⟨⟨hrange.1, hrange.2, hmem⟩, heq, ?_, ?_⟩
  · rw [heq, dateRange_length]
  constructor
  · by_cases hn : n = 0
    · exact Or.inr hn
    · left
      rw [heq]
      unfold dateRange
      match n, hn with
      | n + 1, _ => simp [List.range_succ_eq_map]
  constructor
  · intro i hi
    rw [heq, dateRange_getD _ _ _ hi, dateRange_getD _ _ _ (by omega)]
    omega
  · constructor
    · rintro ⟨hdays, h366⟩
      have hlen : n = daysInYear Y := by
        have hl := congrArg List.length hdays
        rw [heq, dateRange_length, yearDays_length] at hl
        exact hl
      have hleap : isLeap Y = true := by
        unfold daysInYear at h366
        by_contra hc
        simp [hc] at h366
      exact ⟨hleap, by omega⟩
    · rintro ⟨hleap, rfl⟩
      have h366 : daysInYear Y = 366 := by simp [daysInYear, hleap]
      constructor
      · rw [heq, yearDays_eq_dateRange, h366]
      · exact h366

/-- Witness for C3: filename groups `[1999, 2024]`, 366 data values: the
inferred year is 2024 (the first in-range group) and the sequence is the
full leap year 2024. -/
theorem C3_filename_year_dates_witness :
    filenameDates [1999, 2024] 366 = dateRange (daysBeforeYear 2024) 366
      ∧ filenameDates [1999, 2024] 366 = yearDays 2024 := by
  have h := C3_filename_year_dates [1999, 2024] 366 2024 (by decide)
  exact ⟨h.2.1, ((h.2.2.2.2.2).mpr ⟨by decide, rfl⟩).1⟩

/-! ## Series Assembler date coverage

In `create_met_file` the merged table's date column is the union of the
input series' dates.  `min_date`/`max_date` are its extrema, `last_year`
is `max_date.year`, the end of the range is extended to December 31 of
`last_year`, and the table is reindexed onto
`pd.date_range(min_date, max_date, freq := 'D')`, giving one row per
calendar day of the covering range.  The nonempty set of input dates is
modelled as head `d` plus tail `l`. -/

/-- `merged['date'].min()`: the input date with the least absolute day. -/
def minDate (d : Date) (l : List Date) : Date :=
  l.foldl (fun a e => if e.abs < a.abs then e else a) d

/-- `merged['date'].max()`: the input date with the greatest absolute day. -/
def maxDate (d : Date) (l : List Date) : Date :=
  l.foldl (fun a e => if a.abs < e.abs then e else a) d

/-- The reindexed date column of the assembled table: every day from
`min_date` through December 31 of `max_date`'s year. -/
def assembledDates (d : Date) (l : List Date) : List ℕ :=
  let lo := (minDate d l).abs
  let hi := daysBeforeYear ((maxDate d l).year + 1) - 1
  dateRange lo (hi + 1 - lo)

/-- The calendar-exact sum of 365/366 over the years `a, …, b`. -/
def calendarSum (a b : ℕ) : ℕ :=
  ((List.range (b + 1 - a)).map (fun i => daysInYear (a + i))).sum

theorem minDate_mem (d : Date) (l : List Date) : minDate d l ∈ d :: l := by
  induction l generalizing d with
  | nil => exact List.mem_singleton.mpr rfl
  | cons e t ih =>
      have hd : minDate d (e :: t) = minDate (if e.abs < d.abs then e else d) t := rfl
      rw [hd]
      rcases List.mem_cons.mp (ih (if e.abs < d.abs then e else d)) with h1 | h2
      · rw [h1]
        split <;> simp
      · exact List.mem_cons_of_mem _ (List.mem_cons_of_mem _ h2)

theorem minDate_le (d : Date) (l : List Date) :
    ∀ e ∈ d :: l, (minDate d l).abs ≤ e.abs := by
  induction l generalizing d with
  | nil =>
      intro e he
      rw [List.mem_singleton.mp he]
      exact le_refl _
  | cons f t ih =>
      intro e he
      have hd : minDate d (f :: t) = minDate (if f.abs < d.abs then f else d) t := rfl
      rw [hd]
      have hgd : (if f.abs < d.abs then f else d).abs ≤ d.abs := by
        split <;> omega
      have hgf : (if f.abs < d.abs then f else d).abs ≤ f.abs := by
        split <;> omega
      have hg := ih (if f.abs < d.abs then f else d)
      rcases List.mem_cons.mp he with h1 | h2
      · rw [h1]
        exact le_trans (hg _ (List.mem_cons_self _ _)) hgd
      rcases List.mem_cons.mp h2 with h3 | h4
      · rw [h3]
        exact le_trans (hg _ (List.mem_cons_self _ _)) hgf
      · exact hg e (List.mem_cons_of_mem _ h4)

theorem maxDate_mem (d : Date) (l : List Date) : maxDate d l ∈ d :: l := by
  induction l generalizing d with
  | nil => exact List.mem_singleton.mpr rfl
  | cons e t ih =>
      have hd : maxDate d (e :: t) = maxDate (if d.abs < e.abs then e else d) t := rfl
      rw [hd]
      rcases List.mem_cons.mp (ih (if d.abs < e.abs then e else d)) with h1 | h2
      · rw [h1]
        split <;> simp
      · exact List.mem_cons_of_mem _ (List.mem_cons_of_mem _ h2)

theorem maxDate_ge (d : Date) (l : List Date) :
    ∀ e ∈ d :: l, e.abs ≤ (maxDate d l).abs := by
  induction l generalizing d with
  | nil =>
      intro e he
      rw [List.mem_singleton.mp he]
      exact le_refl _
  | cons f t ih =>
      intro e he
      have hd : maxDate d (f :: t) = maxDate (if d.abs < f.abs then f else d) t := rfl
      rw [hd]
      have hgd : d.abs ≤ (if d.abs < f.abs then f else d).abs := by
        split <;> omega
      have hgf : f.abs ≤ (if d.abs < f.abs then f else d).abs := by
        split <;> omega
      have hg := ih (if d.abs < f.abs then f else d)
      rcases List.mem_cons.mp he with h1 | h2
      · rw [h1]
        exact le_trans hgd (hg _ (List.mem_cons_self _ _))
      rcases List.mem_cons.mp h2 with h3 | h4
      · rw [h3]
        exact le_trans hgf (hg _ (List.mem_cons_self _ _))
      · exact hg e (List.mem_cons_of_mem _ h4)

theorem daysBeforeYear_le {a b : ℕ} (h : a ≤ b) :
    daysBeforeYear a ≤ daysBeforeYear b := by
  induction b with
  | zero =>
      have : a = 0 := Nat.le_zero.mp h
      rw [this]
  | succ n ih =>
      rcases Nat.lt_or_ge a (n + 1) with h1 | h2
      · exact le_trans (ih (by omega)) (by rw [daysBeforeYear_succ]; omega)
      · have : a = n + 1 := by omega
        rw [this]

theorem sum_daysInYear (a : ℕ) :
    ∀ k : ℕ, ((List.range k).map (fun i => daysInYear (a + i))).sum
      = daysBeforeYear (a + k) - daysBeforeYear a
  | 0 => by simp
  | k + 1 => by
      rw [List.range_succ, List.map_append, List.sum_append,
        sum_daysInYear a k]
      have h1 : daysBeforeYear a ≤ daysBeforeYear (a + k) :=
        daysBeforeYear_le (by omega)
      have h2 : daysBeforeYear (a + (k + 1))
          = daysBeforeYear (a + k) + daysInYear (a + k) := by
        have : a + (k + 1) = (a + k) + 1 := by omega
        rw [this, daysBeforeYear_succ]
      simp only [List.map_cons, List.map_nil, List.sum_cons, List.sum_nil]
      omega

theorem calendarSum_eq {a b : ℕ} (h : a ≤ b) :
    calendarSum a b = daysBeforeYear (b + 1) - daysBeforeYear a := by
  unfold calendarSum
  rw [sum_daysInYear a (b + 1 - a)]
  congr 2
  omega

/-- C2 (amended): for every non-empty set of input dates, the assembled
table contains each absolute day from the minimum input date through
December 31 of the final year exactly once (so including February 29 when
that range crosses it), and its row count equals the number of days of that
range: the calendar-exact sum of 365/366 over the years spanned minus the
minimum date's day-of-year offset.  The row count equals the full
calendar-exact sum exactly when the minimum input date is a January 1. -/
theorem C2_assembler_coverage (d : Date) (l : List Date)
    (hv : ∀ e ∈ d :: l, e.valid) :
    (∀ x, x ∈ assembledDates d l ↔
        (minDate d l).abs ≤ x ∧ x < daysBeforeYear ((maxDate d l).year + 1))
      ∧ (assembledDates d l).Nodup
      ∧ (assembledDates d l).length + (minDate d l).doy
          = calendarSum (minDate d l).year (maxDate d l).year
      ∧ ((minDate d l).doy = 0 →
          (assembledDates d l).length
            = calendarSum (minDate d l).year (maxDate d l).year) := by
  have hmnv : (minDate d l).valid := hv _ (minDate_mem d l)
  have hmxv : (maxDate d l).valid := hv _ (maxDate_mem d l)
  have hle : (minDate d l).abs ≤ (maxDate d l).abs :=
    minDate_le d l _ (maxDate_mem d l)
  have hdiy : 365 ≤ daysInYear (maxDate d l).year := by
    unfold daysInYear
    split <;> omega
  have hmx_lt : (maxDate d l).abs < daysBeforeYear ((maxDate d l).year + 1) := by
    rw [daysBeforeYear_succ]
    unfold Date.valid at hmxv
    unfold Date.abs
    omega
  have hmn_eq : (minDate d l).abs
      = daysBeforeYear (minDate d l).year + (minDate d l).doy := rfl
  have hyle : (minDate d l).year ≤ (maxDate d l).year := by
    by_contra hc
    push_neg at hc
    have hmono := daysBeforeYear_le (show (maxDate d l).year + 1 ≤ (minDate d l).year by omega)
    omega
  have hrange : assembledDates d l
      = dateRange (minDate d l).abs
          (daysBeforeYear ((maxDate d l).year + 1) - 1 + 1 - (minDate d l).abs) := rfl
  have hlen : (assembledDates d l).length
      = daysBeforeYear ((maxDate d l).year + 1) - 1 + 1 - (minDate d l).abs := by
    rw [hrange, dateRange_length]
  have hcs : calendarSum (minDate d l).year (maxDate d l).year
      = daysBeforeYear ((maxDate d l).year + 1) - daysBeforeYear (minDate d l).year :=
    calendarSum_eq hyle
  have hmono2 := daysBeforeYear_le hyle
  refine ⟨?_, ?_, ?_, ?_⟩
  · intro x
    rw [hrange, mem_dateRange]
    omega
  · rw [hrange]
    exact dateRange_nodup _ _
  · rw [hlen, hcs]
    omega
  · intro h0
    rw [hlen, hcs]
    omega

/-- Witness for C2 (amended): inputs 2020-01-01 and 2021-01-05 give a table
of exactly `calendarSum 2020 2021 = 731` rows. -/
theorem C2_assembler_coverage_witness :
    (assembledDates ⟨2020, 0⟩ [⟨2021, 4⟩]).length = calendarSum 2020 2021
      ∧ calendarSum 2020 2021 = 731 := by
  have h := C2_assembler_coverage ⟨2020, 0⟩ [⟨2021, 4⟩] (by decide)
  have h0 := h.2.2.2 (by decide)
  rw [show (minDate ⟨2020, 0⟩ [⟨2021, 4⟩]).year = 2020 from by decide,
    show (maxDate ⟨2020, 0⟩ [⟨2021, 4⟩]).year = 2021 from by decide] at h0
  exact ⟨h0, by decide⟩

/-- Counterexample to C2 as stated: for the single valid input date
2021-03-01 (day-of-year index 59) the assembled table has 306 rows — the
days from March 1 through December 31 — while the calendar-exact sum over
the years present ({2021}) is 365. -/
theorem C2_row_count_counterexample :
    (⟨2021, 59⟩ : Date).valid
      ∧ (minDate ⟨2021, 59⟩ []).year = 2021
      ∧ (maxDate ⟨2021, 59⟩ []).year = 2021
      ∧ (assembledDates ⟨2021, 59⟩ []).length = 306
      ∧ calendarSum 2021 2021 = 365
      ∧ (306 : ℕ) ≠ 365 := by
  refine ⟨by decide, rfl, rfl, ?_, by decide, by decide⟩
  have h : (assembledDates ⟨2021, 59⟩ []).length
      = daysBeforeYear 2022 - 1 + 1 - (daysBeforeYear 2021 + 59) := by
    have hr : assembledDates ⟨2021, 59⟩ []
        = dateRange (daysBeforeYear 2021 + 59)
            (daysBeforeYear 2022 - 1 + 1 - (daysBeforeYear 2021 + 59)) := rfl
    rw [hr, dateRange_length]
  rw [h]
  decide

/-! ## Fragment combination in the Variable Extractor

After all files of one variable are processed, `extract_daily_data_from_netcdf`
runs `pd.concat(all_data)`, `sort_values('date')` and
`drop_duplicates(subset := 'date', keep := 'first')`.  Records are `(date,
value)` pairs with the date as absolute day number.  `sort_values` uses the
default quicksort, which is not stable, so it is modelled by its contract
alone: the output is some permutation of the input that is ascending in the
date key, with the relative order of records of equal date unspecified. -/

/-- The contract of `sort_values('date')` with the default (unstable) sort
kind: a date-ordered permutation of the input. -/
def isSortValuesOutput (l s : List (ℕ × ℚ)) : Prop :=
  s.Perm l ∧ s.Pairwise (fun a b => a.1 ≤ b.1)

/-- `drop_duplicates(subset := 'date', keep := 'first')`: keep each record
whose date has not occurred earlier. -/
def dropDupDates : List (ℕ × ℚ) → List (ℕ × ℚ)
  | [] => []
  | p :: t => p :: dropDupDates (t.filter (fun q => q.1 != p.1))
termination_by l => l.length
decreasing_by
  simp only [List.length_cons]
  exact Nat.lt_succ_of_le (List.length_filter_le _ _)

theorem dropDupDates_sublist :
    ∀ (l : List (ℕ × ℚ)), List.Sublist (dropDupDates l) l
  | [] => by
      simp only [dropDupDates]
      exact List.Sublist.refl []
  | p :: t => by
      simp only [dropDupDates]
      exact List.Sublist.cons₂ p
        (List.Sublist.trans (dropDupDates_sublist _) (List.filter_sublist t))
  termination_by l => l.length
  decreasing_by
    simp only [List.length_cons]
    exact Nat.lt_succ_of_le (List.length_filter_le _ _)

theorem dropDupDates_dates_nodup :
    ∀ (l : List (ℕ × ℚ)), ((dropDupDates l).map Prod.fst).Nodup
  | [] => by simp [dropDupDates]
  | p :: t => by
      simp only [dropDupDates, List.map_cons]
      refine List.nodup_cons.mpr ⟨?_, dropDupDates_dates_nodup _⟩
      intro hmem
      obtain ⟨r, hr, hr1⟩ := List.mem_map.mp hmem
      have hrf : r ∈ t.filter (fun q => q.1 != p.1) :=
        (dropDupDates_sublist _).subset hr
      have hne := (List.mem_filter.mp hrf).2
      rw [hr1] at hne
      simp at hne
  termination_by l => l.length
  decreasing_by
    simp only [List.length_cons]
    exact Nat.lt_succ_of_le (List.length_filter_le _ _)

theorem find?_date_cons_pos (k : ℕ) (b : ℕ × ℚ) (u : List (ℕ × ℚ))
    (hb : (b.1 == k) = true) :
    List.find? (fun q => q.1 == k) (b :: u) = some b :=
  List.find?_cons_of_pos u hb

theorem find?_date_cons_neg (k : ℕ) (b : ℕ × ℚ) (u : List (ℕ × ℚ))
    (hb : (b.1 == k) = false) :
    List.find? (fun q => q.1 == k) (b :: u) = List.find? (fun q => q.1 == k) u :=
  List.find?_cons_of_neg u (by simp [hb])

theorem find?_filter_ne (e k : ℕ) (hk : k ≠ e) :
    ∀ (t : List (ℕ × ℚ)),
      (t.filter (fun q => q.1 != e)).find? (fun q => q.1 == k)
        = t.find? (fun q => q.1 == k)
  | [] => rfl
  | a :: s => by
      by_cases hae : a.1 = e
      · have h2 : (a.1 == k) = false := by
          simp only [beq_eq_false_iff_ne, ne_eq, hae]
          omega
        rw [List.filter_cons_of_neg (by simp [hae]),
          find?_date_cons_neg k a s h2]
        exact find?_filter_ne e k hk s
      · rw [List.filter_cons_of_pos (by simp [hae])]
        cases hak : (a.1 == k)
        · rw [find?_date_cons_neg k a _ hak, find?_date_cons_neg k a s hak]
          exact find?_filter_ne e k hk s
        · rw [find?_date_cons_pos k a _ hak, find?_date_cons_pos k a s hak]

theorem dropDupDates_find? :
    ∀ (l : List (ℕ × ℚ)), ∀ r ∈ dropDupDates l,
      l.find? (fun q => q.1 == r.1) = some r
  | [], r, hr => by simp [dropDupDates] at hr
  | p :: t, r, hr => by
      have hshape : dropDupDates (p :: t)
          = p :: dropDupDates (t.filter (fun q => q.1 != p.1)) := by
        simp only [dropDupDates]
      rw [hshape] at hr
      rcases List.mem_cons.mp hr with h1 | h2
      · rw [h1]
        rw [find?_date_cons_pos p.1 p t (by simp)]
      · have hrf : r ∈ t.filter (fun q => q.1 != p.1) :=
          (dropDupDates_sublist _).subset h2
        have hne : r.1 ≠ p.1 := by
          have h := (List.mem_filter.mp hrf).2
          simpa using h
        rw [find?_date_cons_neg r.1 p t (by simp; omega)]
        rw [← find?_filter_ne p.1 r.1 hne t]
        exact dropDupDates_find? _ r h2
  termination_by l => l.length
  decreasing_by
    simp only [List.length_cons]
    exact Nat.lt_succ_of_le (List.length_filter_le _ _)

theorem dropDupDates_complete :
    ∀ (l : List (ℕ × ℚ)), ∀ q ∈ l, ∃ r ∈ dropDupDates l, r.1 = q.1
  | [], q, hq => absurd hq (List.not_mem_nil q)
  | p :: t, q, hq => by
      have hshape : dropDupDates (p :: t)
          = p :: dropDupDates (t.filter (fun q => q.1 != p.1)) := by
        simp only [dropDupDates]
      rw [hshape]
      rcases List.mem_cons.mp hq with h1 | h2
      · exact ⟨p, List.mem_cons_self _ _, by rw [h1]⟩
      by_cases hqp : q.1 = p.1
      · exact ⟨p, List.mem_cons_self _ _, hqp.symm⟩
      · have hqf : q ∈ t.filter (fun q' => q'.1 != p.1) :=
          List.mem_filter.mpr ⟨h2, by simpa using hqp⟩
        obtain ⟨r, hr, hr1⟩ := dropDupDates_complete _ q hqf
        exact ⟨r, List.mem_cons_of_mem _ hr, hr1⟩
  termination_by l => l.length
  decreasing_by
    simp only [List.length_cons]
    exact Nat.lt_succ_of_le (List.length_filter_le _ _)

theorem dropDupDates_eq_self :
    ∀ (l : List (ℕ × ℚ)), ((l.map Prod.fst).Nodup) → dropDupDates l = l
  | [], _ => by simp [dropDupDates]
  | p :: t, h => by
      rw [List.map_cons, List.nodup_cons] at h
      have hfilter : t.filter (fun q => q.1 != p.1) = t := by
        rw [List.filter_eq_self]
        intro a ha
        have : a.1 ≠ p.1 := by
          intro hc
          exact h.1 (List.mem_map.mpr ⟨a, ha, hc⟩)
        simpa using this
      simp only [dropDupDates]
      rw [hfilter, dropDupDates_eq_self t h.2]

theorem dateRange_pairwise_lt (start n : ℕ) :
    (dateRange start n).Pairwise (fun a b => a < b) := by
  unfold dateRange
  refine List.pairwise_map.mpr ?_
  exact (List.pairwise_lt_range n).imp (fun h => by omega)

/-- The dates of two zipped consecutive full-year extractions, in
concatenation order, are the consecutive days of both years. -/
theorem concat_years_dates (Y : ℕ) (v1 v2 : List ℚ)
    (hv1 : v1.length = daysInYear Y) (hv2 : v2.length = daysInYear (Y + 1)) :
    ((yearDays Y).zip v1 ++ (yearDays (Y + 1)).zip v2).map Prod.fst
      = dateRange (daysBeforeYear Y) (daysInYear Y + daysInYear (Y + 1)) := by
  rw [List.map_append,
    List.map_fst_zip _ _ (le_of_eq (by rw [yearDays_length, hv1])),
    List.map_fst_zip _ _ (le_of_eq (by rw [yearDays_length, hv2])),
    yearDays_eq_dateRange Y, yearDays_eq_dateRange (Y + 1),
    daysBeforeYear_succ, dateRange_append]

/-- C6 (amended): the program sorts the concatenated fragments with pandas'
default (unstable) quicksort and then drops duplicate dates keeping the
first row of the resulting order.  For every date-ordered permutation the
sort may produce, the returned series is strictly ascending by date with
one record per date; each kept record is the first record of its date in
the sort's output — on duplicate dates not necessarily the first occurrence
in concatenation order — every kept record comes from the input, and every
input date survives.  Concatenating two single-year extractions covering
consecutive years, which has no duplicate dates, yields a series with no
date gaps and no duplicate dates. -/
theorem C6_fragment_combination (l s : List (ℕ × ℚ)) (Y : ℕ) (v1 v2 : List ℚ)
    (hs : isSortValuesOutput l s)
    (hv1 : v1.length = daysInYear Y) (hv2 : v2.length = daysInYear (Y + 1)) :
    (dropDupDates s).Pairwise (fun a b => a.1 < b.1)
      ∧ (∀ r ∈ dropDupDates s, s.find? (fun q => q.1 == r.1) = some r)
      ∧ (∀ r ∈ dropDupDates s, r ∈ l)
      ∧ (∀ q ∈ l, ∃ r ∈ dropDupDates s, r.1 = q.1)
      ∧ (l = (yearDays Y).zip v1 ++ (yearDays (Y + 1)).zip v2 →
          (dropDupDates s).map Prod.fst
            = dateRange (daysBeforeYear Y)
                (daysInYear Y + daysInYear (Y + 1))) := by
  obtain ⟨hperm, hsorted⟩ := hs
  refine ⟨?_, dropDupDates_find? s, ?_, ?_, ?_⟩
  · have hle : (dropDupDates s).Pairwise (fun a b => a.1 ≤ b.1) :=
      List.Pairwise.sublist (dropDupDates_sublist s) hsorted
    have hne : (dropDupDates s).Pairwise (fun a b => a.1 ≠ b.1) :=
      List.pairwise_map.mp (dropDupDates_dates_nodup s)
    exact (hle.and hne).imp (fun h => lt_of_le_of_ne h.1 h.2)
  · intro r hr
    exact hperm.subset ((dropDupDates_sublist s).subset hr)
  · intro q hq
    exact dropDupDates_complete s q (hperm.symm.subset hq)
  · intro hleq
    have hmap : l.map Prod.fst
        = dateRange (daysBeforeYear Y) (daysInYear Y + daysInYear (Y + 1)) := by
      rw [hleq]
      exact concat_years_dates Y v1 v2 hv1 hv2
    have hpermd : (s.map Prod.fst).Perm (l.map Prod.fst) := hperm.map Prod.fst
    have hsortedd : (s.map Prod.fst).Pairwise (fun a b => a ≤ b) :=
      List.pairwise_map.mpr hsorted
    have hD : (l.map Prod.fst).Pairwise (fun a b => a ≤ b) := by
      rw [hmap]
      exact (dateRange_pairwise_lt _ _).imp (fun h => le_of_lt h)
    have heq : s.map Prod.fst = l.map Prod.fst :=
      List.eq_of_perm_of_sorted hpermd hsortedd hD
    have hnodup : (s.map Prod.fst).Nodup := by
      rw [heq, hmap]
      exact dateRange_nodup _ _
    rw [dropDupDates_eq_self s hnodup, heq, hmap]

/-- Witness for C6 (amended): a 365-value 2019 extraction concatenated with
a 366-value 2020 extraction (already date-ordered, so itself a valid sort
output) combines into the 731 consecutive days from 2019-01-01. -/
theorem C6_fragment_combination_witness :
    (dropDupDates ((yearDays 2019).zip (List.replicate 365 (0 : ℚ))
        ++ (yearDays (2019 + 1)).zip (List.replicate 366 (0 : ℚ)))).map
          Prod.fst
      = dateRange (daysBeforeYear 2019) 731 := by
  have hv1 : (List.replicate 365 (0 : ℚ)).length = daysInYear 2019 := by
    rw [List.length_replicate]
    decide
  have hv2 : (List.replicate 366 (0 : ℚ)).length = daysInYear (2019 + 1) := by
    rw [List.length_replicate]
    decide
  have hmap := concat_years_dates 2019 _ _ hv1 hv2
  have hsorted : ((yearDays 2019).zip (List.replicate 365 (0 : ℚ))
      ++ (yearDays (2019 + 1)).zip (List.replicate 366 (0 : ℚ))).Pairwise
        (fun a b => a.1 ≤ b.1) := by
    apply List.pairwise_map.mp
    rw [hmap]
    exact (dateRange_pairwise_lt _ _).imp (fun h => le_of_lt h)
  have h := C6_fragment_combination
    ((yearDays 2019).zip (List.replicate 365 (0 : ℚ))
      ++ (yearDays (2019 + 1)).zip (List.replicate 366 (0 : ℚ)))
    ((yearDays 2019).zip (List.replicate 365 (0 : ℚ))
      ++ (yearDays (2019 + 1)).zip (List.replicate 366 (0 : ℚ)))
    2019 (List.replicate 365 (0 : ℚ)) (List.replicate 366 (0 : ℚ))
    ⟨List.Perm.refl _, hsorted⟩ hv1 hv2
  have h4 := h.2.2.2.2 rfl
  rw [show daysInYear 2019 + daysInYear (2019 + 1) = 731 from by decide] at h4
  exact h4

/-- Counterexample to C6 as stated: pandas' default sort kind is not
stable, so `drop_duplicates(keep := 'first')`, running after the sort, need
not keep the first occurrence in concatenation order.  `[(5, 2), (5, 1)]`
is a valid `sort_values` output for the concatenation `[(5, 1), (5, 2)]`
(a permutation, ascending in the date key), and dropping duplicate dates
keeps `(5, 2)` — not `(5, 1)`, the first occurrence of date 5 in
concatenation order. -/
theorem C6_first_occurrence_counterexample :
    isSortValuesOutput [(5, 1), (5, 2)] [(5, 2), (5, 1)]
      ∧ dropDupDates [(5, 2), (5, 1)] = [(5, 2)]
      ∧ ([((5 : ℕ), (1 : ℚ)), (5, 2)].find? (fun q => q.1 == 5))
          = some (5, 1)
      ∧ ((5 : ℕ), (2 : ℚ)) ≠ ((5 : ℕ), (1 : ℚ)) := by
  refine ⟨⟨List.Perm.swap _ _ _, ?_⟩, ?_, rfl, ?_⟩
  · decide
  · simp [dropDupDates]
  · simp

/-! ## MET Writer: fixed-width data rows

`create_met_file` writes each data row as
`f"{year:4d} {day:4d} {radn:6.1f} {maxt:6.1f} {mint:6.1f} {rain:6.1f}
{evap:6.1f} {vp:6.1f} 222222\n"` with a blank 6-space field for an absent
radiation, evaporation or vapor-pressure value.  Every numeric cell is
written with exactly one decimal digit, so values are modelled exactly as
integer tenths; lines are lists of characters. -/

/-- The decimal digit character for `d < 10`. -/
def digitChar (d : ℕ) : Char := Char.ofNat (48 + d)

/-- Big-endian decimal digit characters of `n`, with explicit fuel (the
fuel `n` of `natChars` always suffices). -/
def natCharsAux : ℕ → ℕ → List Char
  | 0, _ => []
  | fuel + 1, n =>
      if n = 0 then [] else natCharsAux fuel (n / 10) ++ [digitChar (n % 10)]

/-- The decimal rendering of a natural number, as printed by Python. -/
def natChars (n : ℕ) : List Char :=
  if n = 0 then ['0'] else natCharsAux n n

/-- Left-padding with spaces to width `w` (Python's `%{w}d` / `%{w}.1f`). -/
def padLeft (w : ℕ) (s : List Char) : List Char :=
  List.replicate (w - s.length) ' ' ++ s

/-- `f"{n:4d}"`. -/
def formatNat4 (n : ℕ) : List Char := padLeft 4 (natChars n)

/-- The characters of `"%.1f"` applied to the exact decimal `v/10`
(`v` in tenths). -/
def tenthsChars (v : ℤ) : List Char :=
  (if v < 0 then ['-'] else []) ++ natChars (v.natAbs / 10)
    ++ ['.', digitChar (v.natAbs % 10)]

/-- `f"{x:6.1f}"`: the one-decimal rendering padded to width 6. -/
def formatF61 (v : ℤ) : List Char := padLeft 6 (tenthsChars v)

/-- A 6-character optional field: the formatted value, or 6 spaces when the
value is absent. -/
def formatOpt6 : Option ℤ → List Char
  | none => List.replicate 6 ' '
  | some v => formatF61 v

/-- Decimal digit test on characters. -/
def isDigitChar (c : Char) : Bool := 48 ≤ c.toNat && c.toNat ≤ 57

/-- The numeric value of a string of digit characters. -/
def charsToNat (cs : List Char) : ℕ :=
  cs.foldl (fun a c => a * 10 + (c.toNat - 48)) 0

/-- Parse `digits ++ '.' ++ digit` as a count of tenths: the characters
after the leading digit run must be exactly a dot and one digit, and the
digit run must be nonempty. -/
def parseTenthsNat (cs : List Char) : Option ℕ :=
  if (cs.dropWhile isDigitChar).length = 2
      ∧ (cs.dropWhile isDigitChar).getD 0 ' ' = '.'
      ∧ isDigitChar ((cs.dropWhile isDigitChar).getD 1 ' ') = true
      ∧ ¬ (cs.takeWhile isDigitChar).isEmpty = true then
    some (charsToNat (cs.takeWhile isDigitChar) * 10
      + (((cs.dropWhile isDigitChar).getD 1 ' ').toNat - 48))
  else none

/-- Parse an optionally signed one-decimal number as integer tenths. -/
def parseTenths (cs : List Char) : Option ℤ :=
  if cs.head? = some '-' then (parseTenthsNat cs.tail).map (fun n : ℕ => -(n : ℤ))
  else (parseTenthsNat cs).map (fun n : ℕ => (n : ℤ))

/-- Parse a fixed-width numeric field: strip leading spaces; an all-blank
field is an absent value. -/
def parseField (cs : List Char) : Option ℤ :=
  if (cs.dropWhile (fun c => c == ' ')).isEmpty = true then none
  else parseTenths (cs.dropWhile (fun c => c == ' '))

/-- Parse a fixed-width integer field (year, day). -/
def parseNatField (cs : List Char) : Option ℕ :=
  if (cs.dropWhile (fun c => c == ' ')).isEmpty = true
      ∨ ¬ (cs.dropWhile (fun c => c == ' ')).all isDigitChar = true then none
  else some (charsToNat (cs.dropWhile (fun c => c == ' ')))

/-- One data row of the Merged Weather Table as the writer sees it:
`maxt`, `mint`, `rain` are always numeric (missing values were replaced by
0.0), while `radn`, `evap` and `vp` may be absent. -/
structure MetRow where
  year : ℕ
  day : ℕ
  radn : Option ℤ
  maxt : ℤ
  mint : ℤ
  rain : ℤ
  evap : Option ℤ
  vp : Option ℤ
  deriving DecidableEq, Repr

/-- The source-code column: `merged['code'] = '222222'` and
`code_str = "222222"`, for every row. -/
def codeStr : List Char := ['2', '2', '2', '2', '2', '2']

/-- The fixed-width MET data line written for one row. -/
def formatMetLine (r : MetRow) : List Char :=
  formatNat4 r.year ++ [' '] ++ formatNat4 r.day ++ [' ']
    ++ formatOpt6 r.radn ++ [' '] ++ formatF61 r.maxt ++ [' ']
    ++ formatF61 r.mint ++ [' '] ++ formatF61 r.rain ++ [' ']
    ++ formatOpt6 r.evap ++ [' '] ++ formatOpt6 r.vp ++ [' ']
    ++ codeStr ++ ['\n']

/-- Re-parse a MET data line by its fixed-width fields: year at columns
0–3, day at 5–8, then 6-character value fields at 10, 17, 24, 31, 38, 45,
each followed by one space. -/
def parseMetLine (cs : List Char) : Option MetRow :=
  let yearF := cs.take 4
  let r1 := cs.drop 5
  let dayF := r1.take 4
  let r2 := r1.drop 5
  let radnF := r2.take 6
  let r3 := r2.drop 7
  let maxtF := r3.take 6
  let r4 := r3.drop 7
  let mintF := r4.take 6
  let r5 := r4.drop 7
  let rainF := r5.take 6
  let r6 := r5.drop 7
  let evapF := r6.take 6
  let r7 := r6.drop 7
  let vpF := r7.take 6
  match parseNatField yearF, parseNatField dayF, parseField maxtF,
      parseField mintF, parseField rainF with
  | some y, some d, some mx, some mn, some rn =>
      some ⟨y, d, parseField radnF, mx, mn, rn, parseField evapF, parseField vpF⟩
  | _, _, _, _, _ => none

/-- The 6-character source-code field of a written line (columns 52–57). -/
def codeField (cs : List Char) : List Char := (cs.drop 52).take 6

theorem digitChar_toNat {d : ℕ} (h : d < 10) : (digitChar d).toNat = 48 + d := by
  have : ∀ d' : ℕ, d' < 10 → (digitChar d').toNat = 48 + d' := by decide
  exact this d h

theorem isDigitChar_digitChar {d : ℕ} (h : d < 10) :
    isDigitChar (digitChar d) = true := by
  have : ∀ d' : ℕ, d' < 10 → isDigitChar (digitChar d') = true := by decide
  exact this d h

theorem digit_not_space {c : Char} (h : isDigitChar c = true) :
    (c == ' ') = false := by
  simp only [beq_eq_false_iff_ne, ne_eq]
  intro hc
  rw [hc] at h
  exact absurd h (by decide)

theorem digit_ne_minus {c : Char} (h : isDigitChar c = true) :
    ¬ c = '-' := by
  intro hc
  rw [hc] at h
  exact absurd h (by decide)

theorem charsToNat_append_digit (s : List Char) (c : Char) :
    charsToNat (s ++ [c]) = charsToNat s * 10 + (c.toNat - 48) := by
  unfold charsToNat
  rw [List.foldl_append]
  rfl

theorem natCharsAux_all_digits :
    ∀ (fuel n : ℕ), ∀ c ∈ natCharsAux fuel n, isDigitChar c = true
  | 0, _, _, hc => absurd hc (List.not_mem_nil _)
  | fuel + 1, n, c, hc => by
      rw [natCharsAux] at hc
      split at hc
      · exact absurd hc (List.not_mem_nil _)
      · rcases List.mem_append.mp hc with h1 | h2
        · exact natCharsAux_all_digits fuel (n / 10) c h1
        · rw [List.mem_singleton.mp h2]
          exact isDigitChar_digitChar (Nat.mod_lt n (by omega))

theorem charsToNat_natCharsAux :
    ∀ (fuel n : ℕ), n ≤ fuel → charsToNat (natCharsAux fuel n) = n
  | 0, n, h => by
      rw [natCharsAux]
      have : n = 0 := by omega
      rw [this]
      rfl
  | fuel + 1, n, h => by
      rw [natCharsAux]
      split
      · rename_i h0
        rw [h0]
        rfl
      · rename_i h0
        rw [charsToNat_append_digit,
          charsToNat_natCharsAux fuel (n / 10) (by omega),
          digitChar_toNat (Nat.mod_lt n (by omega))]
        omega

theorem natCharsAux_length :
    ∀ (fuel n k : ℕ), n < 10 ^ k → (natCharsAux fuel n).length ≤ k
  | 0, _, _, _ => by
      rw [natCharsAux]
      simp
  | fuel + 1, n, k, hk => by
      rw [natCharsAux]
      split
      · simp
      · rename_i h0
        match k, hk with
        | 0, hk => omega
        | k + 1, hk =>
            rw [List.length_append, List.length_singleton]
            have hdiv : n / 10 < 10 ^ k := by
              rw [Nat.div_lt_iff_lt_mul (by omega)]
              calc n < 10 ^ (k + 1) := hk
                _ = 10 ^ k * 10 := by ring
            have := natCharsAux_length fuel (n / 10) k hdiv
            omega

theorem natChars_all_digits (n : ℕ) :
    ∀ c ∈ natChars n, isDigitChar c = true := by
  unfold natChars
  split
  · intro c hc
    rw [List.mem_singleton.mp hc]
    decide
  · exact natCharsAux_all_digits n n

theorem charsToNat_natChars (n : ℕ) : charsToNat (natChars n) = n := by
  unfold natChars
  split
  · rename_i h
    rw [h]
    rfl
  · exact charsToNat_natCharsAux n n (le_refl n)

theorem natChars_ne_nil (n : ℕ) : natChars n ≠ [] := by
  unfold natChars
  split
  · simp
  · rename_i h
    match n, h with
    | n + 1, h =>
        rw [natCharsAux]
        simp

theorem natChars_length_le {n k : ℕ} (hn : n < 10 ^ k) (hk : 1 ≤ k) :
    (natChars n).length ≤ k := by
  unfold natChars
  split
  · simpa using hk
  · exact natCharsAux_length n n k hn

theorem natChars_head_digit (n : ℕ) :
    ∀ c, (natChars n).head? = some c → isDigitChar c = true := by
  intro c hc
  match hh : natChars n with
  | [] => exact absurd hh (natChars_ne_nil n)
  | d :: t =>
      rw [hh] at hc
      simp only [List.head?_cons, Option.some.injEq] at hc
      rw [← hc]
      exact natChars_all_digits n d (hh ▸ List.mem_cons_self d t)

theorem padLeft_length {w : ℕ} {s : List Char} (h : s.length ≤ w) :
    (padLeft w s).length = w := by
  unfold padLeft
  rw [List.length_append, List.length_replicate]
  omega

theorem dropWhile_space_replicate (k : ℕ) (s : List Char)
    (hhead : ∀ c, s.head? = some c → (c == ' ') = false) :
    (List.replicate k ' ' ++ s).dropWhile (fun c => c == ' ') = s := by
  induction k with
  | zero =>
      rw [List.replicate_zero, List.nil_append]
      match s, hhead with
      | [], _ => rfl
      | c :: t, hhead =>
          rw [List.dropWhile_cons_of_neg]
          simp [hhead c rfl]
  | succ k ih =>
      rw [List.replicate_succ, List.cons_append, List.dropWhile_cons_of_pos (by simp)]
      exact ih

theorem dropWhile_space_padLeft (w : ℕ) (s : List Char)
    (hhead : ∀ c, s.head? = some c → (c == ' ') = false) :
    (padLeft w s).dropWhile (fun c => c == ' ') = s :=
  dropWhile_space_replicate _ s hhead

theorem takeWhile_digit_append (l1 l2 : List Char)
    (h1 : ∀ c ∈ l1, isDigitChar c = true)
    (h2 : ∀ c, l2.head? = some c → isDigitChar c = false) :
    (l1 ++ l2).takeWhile isDigitChar = l1
      ∧ (l1 ++ l2).dropWhile isDigitChar = l2 := by
  induction l1 with
  | nil =>
      rw [List.nil_append]
      match l2, h2 with
      | [], _ => exact ⟨rfl, rfl⟩
      | c :: t, h2 =>
          constructor
          · rw [List.takeWhile_cons_of_neg]
            simp [h2 c rfl]
          · rw [List.dropWhile_cons_of_neg]
            simp [h2 c rfl]
  | cons a l1 ih =>
      have ha : isDigitChar a = true := h1 a (List.mem_cons_self a l1)
      have ih' := ih (fun c hc => h1 c (List.mem_cons_of_mem a hc))
      constructor
      · rw [List.cons_append, List.takeWhile_cons_of_pos ha, ih'.1]
      · rw [List.cons_append, List.dropWhile_cons_of_pos ha, ih'.2]

theorem parseTenthsNat_format (q r : ℕ) (hr : r < 10) :
    parseTenthsNat (natChars q ++ ['.', digitChar r]) = some (q * 10 + r) := by
  have hsplit := takeWhile_digit_append (natChars q) ['.', digitChar r]
    (natChars_all_digits q)
    (fun c hc => by
      simp only [List.head?_cons, Option.some.injEq] at hc
      rw [← hc]
      decide)
  have hempty : ((natChars q ++ ['.', digitChar r]).takeWhile isDigitChar).isEmpty
      = false := by
    rw [hsplit.1]
    match hh : natChars q with
    | [] => exact absurd hh (natChars_ne_nil q)
    | a :: t => rfl
  unfold parseTenthsNat
  rw [hsplit.1, hsplit.2]
  rw [if_pos ⟨rfl, rfl, by
    rw [List.getD_cons_succ, List.getD_cons_zero]
    exact isDigitChar_digitChar hr, by
    rw [hsplit.1] at hempty
    rw [hempty]
    simp⟩]
  rw [List.getD_cons_succ, List.getD_cons_zero, charsToNat_natChars,
    digitChar_toNat hr]
  congr 1
  omega

theorem tenthsChars_cases (v : ℤ) :
    ∃ c t, tenthsChars v = c :: t ∧ (isDigitChar c = true ∨ c = '-') := by
  unfold tenthsChars
  by_cases hv : v < 0
  · rw [if_pos hv]
    exact ⟨'-', _, rfl, Or.inr rfl⟩
  · rw [if_neg hv]
    match hh : natChars (v.natAbs / 10) with
    | [] => exact absurd hh (natChars_ne_nil _)
    | a :: t =>
        refine ⟨a, t ++ ['.', digitChar (v.natAbs % 10)], rfl, Or.inl ?_⟩
        exact natChars_all_digits _ a (hh ▸ List.mem_cons_self a t)

theorem parseTenths_neg (X : List Char) :
    parseTenths ('-' :: X) = (parseTenthsNat X).map (fun n : ℕ => -(n : ℤ)) := by
  unfold parseTenths
  rw [List.head?_cons, if_pos rfl, List.tail_cons]

theorem parseTenths_unsigned (X : List Char) (h : ¬ X.head? = some '-') :
    parseTenths X = (parseTenthsNat X).map (fun n : ℕ => (n : ℤ)) := by
  unfold parseTenths
  rw [if_neg h]

theorem parseTenths_tenthsChars (v : ℤ) : parseTenths (tenthsChars v) = some v := by
  by_cases hv : v < 0
  · have hform : tenthsChars v
        = '-' :: (natChars (v.natAbs / 10) ++ ['.', digitChar (v.natAbs % 10)]) := by
      unfold tenthsChars
      rw [if_pos hv]
      rfl
    rw [hform, parseTenths_neg,
      parseTenthsNat_format _ _ (Nat.mod_lt _ (by omega))]
    simp only [Option.map_some']
    congr 1
    have := Nat.div_add_mod v.natAbs 10
    omega
  · have hform : tenthsChars v
        = natChars (v.natAbs / 10) ++ ['.', digitChar (v.natAbs % 10)] := by
      unfold tenthsChars
      rw [if_neg hv]
      rfl
    have hhd : ¬ (natChars (v.natAbs / 10)
        ++ ['.', digitChar (v.natAbs % 10)]).head? = some '-' := by
      match hh : natChars (v.natAbs / 10) with
      | [] => exact absurd hh (natChars_ne_nil _)
      | a :: t =>
          rw [List.cons_append, List.head?_cons]
          intro hc
          simp only [Option.some.injEq] at hc
          exact digit_ne_minus
            (natChars_all_digits _ a (hh ▸ List.mem_cons_self a t)) hc
    rw [hform, parseTenths_unsigned _ hhd,
      parseTenthsNat_format _ _ (Nat.mod_lt _ (by omega))]
    simp only [Option.map_some']
    congr 1
    have := Nat.div_add_mod v.natAbs 10
    omega

theorem parseField_formatF61 (v : ℤ) : parseField (formatF61 v) = some v := by
  obtain ⟨c, t, heq, hc⟩ := tenthsChars_cases v
  have hhead : ∀ c', (tenthsChars v).head? = some c' → (c' == ' ') = false := by
    intro c' hc'
    rw [heq, List.head?_cons] at hc'
    simp only [Option.some.injEq] at hc'
    rw [← hc']
    rcases hc with h1 | h1
    · exact digit_not_space h1
    · rw [h1]
      decide
  unfold parseField formatF61
  rw [dropWhile_space_padLeft _ _ hhead]
  rw [if_neg (show ¬ (tenthsChars v).isEmpty = true by rw [heq]; simp)]
  exact parseTenths_tenthsChars v

theorem parseField_blank : parseField (List.replicate 6 ' ') = none := by decide

theorem parseField_formatOpt6 (o : Option ℤ) : parseField (formatOpt6 o) = o := by
  cases o
  · exact parseField_blank
  · exact parseField_formatF61 _

theorem parseNatField_formatNat4 (n : ℕ) : parseNatField (formatNat4 n) = some n := by
  have hhead : ∀ c, (natChars n).head? = some c → (c == ' ') = false :=
    fun c hc => digit_not_space (natChars_head_digit n c hc)
  unfold parseNatField formatNat4
  rw [dropWhile_space_padLeft _ _ hhead]
  rw [if_neg ?_]
  · rw [charsToNat_natChars]
  · rw [not_or]
    constructor
    · match hh : natChars n with
      | [] => exact absurd hh (natChars_ne_nil n)
      | a :: t => simp [hh]
    · simp only [not_not, List.all_eq_true]
      exact natChars_all_digits n

theorem formatNat4_length {n : ℕ} (h : n < 10000) : (formatNat4 n).length = 4 := by
  have h4 : n < 10 ^ 4 := by norm_num; omega
  exact padLeft_length (natChars_length_le h4 (by norm_num))

theorem tenthsChars_length_le {v : ℤ} (h1 : -9999 ≤ v) (h2 : v ≤ 99999) :
    (tenthsChars v).length ≤ 6 := by
  unfold tenthsChars
  by_cases hv : v < 0
  · rw [if_pos hv]
    have hdiv : v.natAbs / 10 < 10 ^ 3 := by norm_num; omega
    have hlen := natChars_length_le hdiv (by norm_num)
    simp only [List.length_append, List.length_cons, List.length_singleton,
      List.length_nil]
    omega
  · rw [if_neg hv]
    have hdiv : v.natAbs / 10 < 10 ^ 4 := by norm_num; omega
    have hlen := natChars_length_le hdiv (by norm_num)
    simp only [List.length_append, List.length_cons, List.length_singleton,
      List.length_nil]
    omega

theorem formatF61_length {v : ℤ} (h1 : -9999 ≤ v) (h2 : v ≤ 99999) :
    (formatF61 v).length = 6 :=
  padLeft_length (tenthsChars_length_le h1 h2)

theorem formatOpt6_length {o : Option ℤ}
    (h1 : -9999 ≤ o.getD 0) (h2 : o.getD 0 ≤ 99999) :
    (formatOpt6 o).length = 6 := by
  cases o
  · simp [formatOpt6]
  · exact formatF61_length (by simpa using h1) (by simpa using h2)

theorem take_field {f x : List Char} {w : ℕ} (hf : f.length = w) :
    (f ++ x).take w = f :=
  List.take_left' hf

theorem drop_field {f x : List Char} {c : Char} {k : ℕ}
    (hf : f.length + 1 = k) : (f ++ (c :: x)).drop k = x := by
  subst hf
  induction f with
  | nil => simp
  | cons a f ih =>
      rw [List.cons_append, List.length_cons, List.drop_succ_cons]
      exact ih

set_option maxHeartbeats 1000000 in
theorem metLine_parse_slices (f1 f2 f3 f4 f5 f6 f7 f8 f9 rest0 : List Char)
    (h1 : f1.length = 4) (h2 : f2.length = 4) (h3 : f3.length = 6)
    (h4 : f4.length = 6) (h5 : f5.length = 6) (h6 : f6.length = 6)
    (h7 : f7.length = 6) (h8 : f8.length = 6) (h9 : f9.length = 6) :
    parseMetLine (f1 ++ (' ' :: (f2 ++ (' ' :: (f3 ++ (' ' :: (f4 ++ (' ' :: (f5 ++ (' ' :: (f6 ++ (' ' :: (f7 ++ (' ' :: (f8 ++ (' ' :: (f9 ++ rest0)))))))))))))))))
        = (match parseNatField f1, parseNatField f2, parseField f4,
              parseField f5, parseField f6 with
          | some y, some d, some mx, some mn, some rn =>
              some ⟨y, d, parseField f3, mx, mn, rn, parseField f7,
                parseField f8⟩
          | _, _, _, _, _ => none)
      ∧ ((f1 ++ (' ' :: (f2 ++ (' ' :: (f3 ++ (' ' :: (f4 ++ (' ' :: (f5 ++ (' ' :: (f6 ++ (' ' :: (f7 ++ (' ' :: (f8 ++ (' ' :: (f9 ++ rest0))))))))))))))))).drop 10).take 6 = f3
      ∧ ((f1 ++ (' ' :: (f2 ++ (' ' :: (f3 ++ (' ' :: (f4 ++ (' ' :: (f5 ++ (' ' :: (f6 ++ (' ' :: (f7 ++ (' ' :: (f8 ++ (' ' :: (f9 ++ rest0))))))))))))))))).drop 38).take 6 = f7
      ∧ ((f1 ++ (' ' :: (f2 ++ (' ' :: (f3 ++ (' ' :: (f4 ++ (' ' :: (f5 ++ (' ' :: (f6 ++ (' ' :: (f7 ++ (' ' :: (f8 ++ (' ' :: (f9 ++ rest0))))))))))))))))).drop 45).take 6 = f8
      ∧ ((f1 ++ (' ' :: (f2 ++ (' ' :: (f3 ++ (' ' :: (f4 ++ (' ' :: (f5 ++ (' ' :: (f6 ++ (' ' :: (f7 ++ (' ' :: (f8 ++ (' ' :: (f9 ++ rest0))))))))))))))))).drop 52).take 6 = f9
      ∧ (f1 ++ (' ' :: (f2 ++ (' ' :: (f3 ++ (' ' :: (f4 ++ (' ' :: (f5 ++ (' ' :: (f6 ++ (' ' :: (f7 ++ (' ' :: (f8 ++ (' ' :: (f9 ++ rest0))))))))))))))))).length = 58 + rest0.length := by
  have s1 : ((f1 ++ (' ' :: (f2 ++ (' ' :: (f3 ++ (' ' :: (f4 ++ (' ' :: (f5 ++ (' ' :: (f6 ++ (' ' :: (f7 ++ (' ' :: (f8 ++ (' ' :: (f9 ++ rest0)))))))))))))))))).drop 5 = (f2 ++ (' ' :: (f3 ++ (' ' :: (f4 ++ (' ' :: (f5 ++ (' ' :: (f6 ++ (' ' :: (f7 ++ (' ' :: (f8 ++ (' ' :: (f9 ++ rest0))))))))))))))) := drop_field (by rw [h1])
  have s2 : ((f2 ++ (' ' :: (f3 ++ (' ' :: (f4 ++ (' ' :: (f5 ++ (' ' :: (f6 ++ (' ' :: (f7 ++ (' ' :: (f8 ++ (' ' :: (f9 ++ rest0)))))))))))))))).drop 5 = (f3 ++ (' ' :: (f4 ++ (' ' :: (f5 ++ (' ' :: (f6 ++ (' ' :: (f7 ++ (' ' :: (f8 ++ (' ' :: (f9 ++ rest0))))))))))))) := drop_field (by rw [h2])
  have s3 : ((f3 ++ (' ' :: (f4 ++ (' ' :: (f5 ++ (' ' :: (f6 ++ (' ' :: (f7 ++ (' ' :: (f8 ++ (' ' :: (f9 ++ rest0)))))))))))))).drop 7 = (f4 ++ (' ' :: (f5 ++ (' ' :: (f6 ++ (' ' :: (f7 ++ (' ' :: (f8 ++ (' ' :: (f9 ++ rest0))))))))))) := drop_field (by rw [h3])
  have s4 : ((f4 ++ (' ' :: (f5 ++ (' ' :: (f6 ++ (' ' :: (f7 ++ (' ' :: (f8 ++ (' ' :: (f9 ++ rest0)))))))))))).drop 7 = (f5 ++ (' ' :: (f6 ++ (' ' :: (f7 ++ (' ' :: (f8 ++ (' ' :: (f9 ++ rest0))))))))) := drop_field (by rw [h4])
  have s5 : ((f5 ++ (' ' :: (f6 ++ (' ' :: (f7 ++ (' ' :: (f8 ++ (' ' :: (f9 ++ rest0)))))))))).drop 7 = (f6 ++ (' ' :: (f7 ++ (' ' :: (f8 ++ (' ' :: (f9 ++ rest0))))))) := drop_field (by rw [h5])
  have s6 : ((f6 ++ (' ' :: (f7 ++ (' ' :: (f8 ++ (' ' :: (f9 ++ rest0)))))))).drop 7 = (f7 ++ (' ' :: (f8 ++ (' ' :: (f9 ++ rest0))))) := drop_field (by rw [h6])
  have s7 : ((f7 ++ (' ' :: (f8 ++ (' ' :: (f9 ++ rest0)))))).drop 7 = (f8 ++ (' ' :: (f9 ++ rest0))) := drop_field (by rw [h7])
  have s8 : ((f8 ++ (' ' :: (f9 ++ rest0)))).drop 7 = (f9 ++ rest0) := drop_field (by rw [h8])
  have d10 : ((f1 ++ (' ' :: (f2 ++ (' ' :: (f3 ++ (' ' :: (f4 ++ (' ' :: (f5 ++ (' ' :: (f6 ++ (' ' :: (f7 ++ (' ' :: (f8 ++ (' ' :: (f9 ++ rest0)))))))))))))))))).drop 10 = (f3 ++ (' ' :: (f4 ++ (' ' :: (f5 ++ (' ' :: (f6 ++ (' ' :: (f7 ++ (' ' :: (f8 ++ (' ' :: (f9 ++ rest0))))))))))))) := by
    have hs := congrArg (List.drop 5) s1
    rw [s2, List.drop_drop] at hs
    exact hs
  have d17 : ((f1 ++ (' ' :: (f2 ++ (' ' :: (f3 ++ (' ' :: (f4 ++ (' ' :: (f5 ++ (' ' :: (f6 ++ (' ' :: (f7 ++ (' ' :: (f8 ++ (' ' :: (f9 ++ rest0)))))))))))))))))).drop 17 = (f4 ++ (' ' :: (f5 ++ (' ' :: (f6 ++ (' ' :: (f7 ++ (' ' :: (f8 ++ (' ' :: (f9 ++ rest0))))))))))) := by
    have hs := congrArg (List.drop 7) d10
    rw [s3, List.drop_drop] at hs
    exact hs
  have d24 : ((f1 ++ (' ' :: (f2 ++ (' ' :: (f3 ++ (' ' :: (f4 ++ (' ' :: (f5 ++ (' ' :: (f6 ++ (' ' :: (f7 ++ (' ' :: (f8 ++ (' ' :: (f9 ++ rest0)))))))))))))))))).drop 24 = (f5 ++ (' ' :: (f6 ++ (' ' :: (f7 ++ (' ' :: (f8 ++ (' ' :: (f9 ++ rest0))))))))) := by
    have hs := congrArg (List.drop 7) d17
    rw [s4, List.drop_drop] at hs
    exact hs
  have d31 : ((f1 ++ (' ' :: (f2 ++ (' ' :: (f3 ++ (' ' :: (f4 ++ (' ' :: (f5 ++ (' ' :: (f6 ++ (' ' :: (f7 ++ (' ' :: (f8 ++ (' ' :: (f9 ++ rest0)))))))))))))))))).drop 31 = (f6 ++ (' ' :: (f7 ++ (' ' :: (f8 ++ (' ' :: (f9 ++ rest0))))))) := by
    have hs := congrArg (List.drop 7) d24
    rw [s5, List.drop_drop] at hs
    exact hs
  have d38 : ((f1 ++ (' ' :: (f2 ++ (' ' :: (f3 ++ (' ' :: (f4 ++ (' ' :: (f5 ++ (' ' :: (f6 ++ (' ' :: (f7 ++ (' ' :: (f8 ++ (' ' :: (f9 ++ rest0)))))))))))))))))).drop 38 = (f7 ++ (' ' :: (f8 ++ (' ' :: (f9 ++ rest0))))) := by
    have hs := congrArg (List.drop 7) d31
    rw [s6, List.drop_drop] at hs
    exact hs
  have d45 : ((f1 ++ (' ' :: (f2 ++ (' ' :: (f3 ++ (' ' :: (f4 ++ (' ' :: (f5 ++ (' ' :: (f6 ++ (' ' :: (f7 ++ (' ' :: (f8 ++ (' ' :: (f9 ++ rest0)))))))))))))))))).drop 45 = (f8 ++ (' ' :: (f9 ++ rest0))) := by
    have hs := congrArg (List.drop 7) d38
    rw [s7, List.drop_drop] at hs
    exact hs
  have d52 : ((f1 ++ (' ' :: (f2 ++ (' ' :: (f3 ++ (' ' :: (f4 ++ (' ' :: (f5 ++ (' ' :: (f6 ++ (' ' :: (f7 ++ (' ' :: (f8 ++ (' ' :: (f9 ++ rest0)))))))))))))))))).drop 52 = (f9 ++ rest0) := by
    have hs := congrArg (List.drop 7) d45
    rw [s8, List.drop_drop] at hs
    exact hs
  refine ⟨?_, ?_, ?_, ?_, ?_, ?_⟩
  · simp only [parseMetLine]
    rw [take_field h1, s1, take_field h2, s2, take_field h3, s3,
      take_field h4, s4, take_field h5, s5, take_field h6, s6,
      take_field h7, s7, take_field h8]
  · rw [d10, take_field h3]
  · rw [d38, take_field h7]
  · rw [d45, take_field h8]
  · rw [d52, take_field h9]
  · simp only [List.length_append, List.length_cons]
    omega

/-- C7 (amended): writing a Merged Weather Table row to MET text and
re-parsing the fixed-width fields reproduces the numeric values exactly at
the written 1-decimal precision and recovers the exact column layout
(4-character year/day, 6-character numeric fields, 6 spaces for absent
radiation, evaporation and vapor pressure), provided every value fits its
field: year/day below 10000 and each numeric value within
[-999.9, 9999.9] (−9999 to 99999 tenths).  Values outside these bounds
widen their field and break the layout (see the counterexample). -/
theorem C7_met_roundtrip (r : MetRow)
    (hy : r.year < 10000) (hd : r.day < 10000)
    (hmx1 : -9999 ≤ r.maxt) (hmx2 : r.maxt ≤ 99999)
    (hmn1 : -9999 ≤ r.mint) (hmn2 : r.mint ≤ 99999)
    (hrn1 : -9999 ≤ r.rain) (hrn2 : r.rain ≤ 99999)
    (hra1 : -9999 ≤ r.radn.getD 0) (hra2 : r.radn.getD 0 ≤ 99999)
    (hev1 : -9999 ≤ r.evap.getD 0) (hev2 : r.evap.getD 0 ≤ 99999)
    (hvp1 : -9999 ≤ r.vp.getD 0) (hvp2 : r.vp.getD 0 ≤ 99999) :
    parseMetLine (formatMetLine r) = some r
      ∧ (formatMetLine r).length = 59
      ∧ (r.radn = none →
          ((formatMetLine r).drop 10).take 6 = List.replicate 6 ' ')
      ∧ (r.evap = none →
          ((formatMetLine r).drop 38).take 6 = List.replicate 6 ' ')
      ∧ (r.vp = none →
          ((formatMetLine r).drop 45).take 6 = List.replicate 6 ' ') := by
  have hform : formatMetLine r
      = formatNat4 r.year ++ (' ' :: (formatNat4 r.day ++ (' ' ::
          (formatOpt6 r.radn ++ (' ' :: (formatF61 r.maxt ++ (' ' ::
          (formatF61 r.mint ++ (' ' :: (formatF61 r.rain ++ (' ' ::
          (formatOpt6 r.evap ++ (' ' :: (formatOpt6 r.vp ++ (' ' ::
          (codeStr ++ ['\n'])))))))))))))))) := by
    simp only [formatMetLine, List.append_assoc, List.singleton_append,
      List.cons_append, List.nil_append]
  have h := metLine_parse_slices (formatNat4 r.year) (formatNat4 r.day)
    (formatOpt6 r.radn) (formatF61 r.maxt) (formatF61 r.mint)
    (formatF61 r.rain) (formatOpt6 r.evap) (formatOpt6 r.vp) codeStr ['\n']
    (formatNat4_length hy) (formatNat4_length hd)
    (formatOpt6_length hra1 hra2) (formatF61_length hmx1 hmx2)
    (formatF61_length hmn1 hmn2) (formatF61_length hrn1 hrn2)
    (formatOpt6_length hev1 hev2) (formatOpt6_length hvp1 hvp2) rfl
  rw [hform]
  refine ⟨?_, ?_, ?_, ?_, ?_⟩
  · rw [h.1, parseNatField_formatNat4, parseNatField_formatNat4,
      parseField_formatF61, parseField_formatF61, parseField_formatF61,
      parseField_formatOpt6, parseField_formatOpt6, parseField_formatOpt6]
  · rw [h.2.2.2.2.2]
    simp
  · intro hnone
    rw [h.2.1, hnone]
    rfl
  · intro hnone
    rw [h.2.2.1, hnone]
    rfl
  · intro hnone
    rw [h.2.2.2.1, hnone]
    rfl

/-- Witness for C7 at the concrete row year 2024, day 366, radiation 17.5,
maxt 30.5, mint 12.1, rain 0.0, no evaporation, vp 9.2. -/
theorem C7_met_roundtrip_witness :
    parseMetLine (formatMetLine ⟨2024, 366, some 175, 305, 121, 0, none, some 92⟩)
        = some ⟨2024, 366, some 175, 305, 121, 0, none, some 92⟩
      ∧ (formatMetLine
          ⟨2024, 366, some 175, 305, 121, 0, none, some 92⟩).length = 59 := by
  have h := C7_met_roundtrip ⟨2024, 366, some 175, 305, 121, 0, none, some 92⟩
    (by decide) (by decide) (by decide) (by decide) (by decide) (by decide)
    (by decide) (by decide) (by decide) (by decide) (by decide) (by decide)
    (by decide) (by decide)
  exact ⟨h.1, h.2.1⟩

/-- Counterexample to C7 as stated for every table: the row with
`maxt = 123456.7` widens its 6-character field to 8 characters, the line is
61 characters instead of 59, and re-parsing the fixed-width fields no
longer reproduces the row. -/
theorem C7_met_layout_counterexample :
    parseMetLine (formatMetLine ⟨2024, 1, none, 1234567, 0, 0, none, none⟩)
        ≠ some ⟨2024, 1, none, 1234567, 0, 0, none, none⟩
      ∧ (formatMetLine ⟨2024, 1, none, 1234567, 0, 0, none, none⟩).length = 61
      ∧ (61 : ℕ) ≠ 59 := by
  refine ⟨by decide, by decide, by decide⟩

/-- C1 (amended): the 6-character source-code field of every written row
contains the literal "222222", whether or not the row's vapor pressure was
computed from humidity — in particular also when no humidity series was
supplied and the vapor-pressure field is blank. -/
theorem C1_code_field_always (r : MetRow)
    (hy : r.year < 10000) (hd : r.day < 10000)
    (hmx1 : -9999 ≤ r.maxt) (hmx2 : r.maxt ≤ 99999)
    (hmn1 : -9999 ≤ r.mint) (hmn2 : r.mint ≤ 99999)
    (hrn1 : -9999 ≤ r.rain) (hrn2 : r.rain ≤ 99999)
    (hra1 : -9999 ≤ r.radn.getD 0) (hra2 : r.radn.getD 0 ≤ 99999)
    (hev1 : -9999 ≤ r.evap.getD 0) (hev2 : r.evap.getD 0 ≤ 99999)
    (hvp1 : -9999 ≤ r.vp.getD 0) (hvp2 : r.vp.getD 0 ≤ 99999) :
    codeField (formatMetLine r) = ['2', '2', '2', '2', '2', '2'] := by
  have hform : formatMetLine r
      = formatNat4 r.year ++ (' ' :: (formatNat4 r.day ++ (' ' ::
          (formatOpt6 r.radn ++ (' ' :: (formatF61 r.maxt ++ (' ' ::
          (formatF61 r.mint ++ (' ' :: (formatF61 r.rain ++ (' ' ::
          (formatOpt6 r.evap ++ (' ' :: (formatOpt6 r.vp ++ (' ' ::
          (codeStr ++ ['\n'])))))))))))))))) := by
    simp only [formatMetLine, List.append_assoc, List.singleton_append,
      List.cons_append, List.nil_append]
  have h := metLine_parse_slices (formatNat4 r.year) (formatNat4 r.day)
    (formatOpt6 r.radn) (formatF61 r.maxt) (formatF61 r.mint)
    (formatF61 r.rain) (formatOpt6 r.evap) (formatOpt6 r.vp) codeStr ['\n']
    (formatNat4_length hy) (formatNat4_length hd)
    (formatOpt6_length hra1 hra2) (formatF61_length hmx1 hmx2)
    (formatF61_length hmn1 hmn2) (formatF61_length hrn1 hrn2)
    (formatOpt6_length hev1 hev2) (formatOpt6_length hvp1 hvp2) rfl
  unfold codeField
  rw [hform]
  exact h.2.2.2.2.1

/-- Witness for C1 (amended) at a row written without any humidity input
(blank vapor pressure): its code field is still "222222". -/
theorem C1_code_field_always_witness :
    codeField (formatMetLine ⟨2020, 1, none, 250, 100, 0, none, none⟩)
      = ['2', '2', '2', '2', '2', '2'] :=
  C1_code_field_always ⟨2020, 1, none, 250, 100, 0, none, none⟩
    (by decide) (by decide) (by decide) (by decide) (by decide) (by decide)
    (by decide) (by decide) (by decide) (by decide) (by decide) (by decide)
    (by decide) (by decide)

/-- Counterexample to C1 as stated: for a concrete row whose vapor pressure
was not computed from humidity (vp blank), the written code field is
"222222", not six spaces. -/
theorem C1_code_field_counterexample :
    codeField (formatMetLine ⟨2035, 100, some 100, 200, 50, 12, none, none⟩)
        = ['2', '2', '2', '2', '2', '2']
      ∧ codeField (formatMetLine ⟨2035, 100, some 100, 200, 50, 12, none, none⟩)
        ≠ List.replicate 6 ' ' := by
  refine ⟨by decide, by decide⟩

/-! ## Mutation of the input DataFrames by `create_met_file`

`create_met_file` copies `tasmax_df` (`merged = tasmax_df.copy()`) and
`hurs_df` (`hurs_df_copy = hurs_df.copy()`), but assigns
`tasmin_df['date'] = pd.to_datetime(tasmin_df['date'])`,
`pr_df['date'] = pd.to_datetime(pr_df['date'])`,
`rsds_df['date'] = pd.to_datetime(rsds_df['date'])` and
`rsds_df['value_mj'] = rsds_df['value'] * 0.0864` — in-place column writes
on the caller's objects.  A DataFrame is modelled as an ordered list of
named columns whose cells are raw (unconverted) dates, datetime values, or
numbers. -/

/-- A cell of a column: a raw date string, a converted datetime, or a
number. -/
inductive Cell where
  | rawDate (d : ℕ)
  | dt (d : ℕ)
  | num (q : ℚ)
  deriving DecidableEq, Repr

/-- A DataFrame: ordered named columns. -/
abbrev DF : Type := List (String × List Cell)

/-- The ordered column names of a frame. -/
def colNames (df : DF) : List String := df.map Prod.fst

/-- Column lookup (empty when the column is absent). -/
def getCol (df : DF) (n : String) : List Cell :=
  ((df.find? (fun c => c.1 == n)).map Prod.snd).getD []

/-- `df[n] = vals`: replace the column in place when it exists, else append
it — pandas column assignment. -/
def setCol (df : DF) (n : String) (vals : List Cell) : DF :=
  if df.any (fun c => c.1 == n) then
    df.map (fun c => if c.1 == n then (c.1, vals) else c)
  else df ++ [(n, vals)]

/-- `pd.to_datetime` on one cell: converts a raw date, leaves a datetime
unchanged. -/
def toDatetime : Cell → Cell
  | Cell.rawDate d => Cell.dt d
  | c => c

/-- `* 0.0864` on one cell (W/m² → MJ/m²). -/
def mulMj : Cell → Cell
  | Cell.num q => Cell.num (q * 0.0864)
  | c => c

/-- The effect of `create_met_file` on its five input DataFrames: the
post-call states of `(tasmax_df, tasmin_df, pr_df, rsds_df, hurs_df)`. -/
def create_met_file_inputs (tasmax tasmin pr rsds hurs : DF) :
    DF × DF × DF × DF × DF :=
  (tasmax,
   setCol tasmin "date" ((getCol tasmin "date").map toDatetime),
   setCol pr "date" ((getCol pr "date").map toDatetime),
   setCol (setCol rsds "date" ((getCol rsds "date").map toDatetime))
     "value_mj"
     ((getCol (setCol rsds "date" ((getCol rsds "date").map toDatetime))
         "value").map mulMj),
   hurs)

theorem colNames_setCol_existing (df : DF) (n : String) (v : List Cell)
    (h : df.any (fun c => c.1 == n) = true) :
    colNames (setCol df n v) = colNames df := by
  unfold setCol colNames
  rw [if_pos h, List.map_map]
  apply List.map_congr_left
  intro c _
  show (if c.1 == n then (c.1, v) else c).1 = c.1
  split <;> rfl

theorem colNames_setCol_new (df : DF) (n : String) (v : List Cell)
    (h : df.any (fun c => c.1 == n) = false) :
    colNames (setCol df n v) = colNames df ++ [n] := by
  unfold setCol colNames
  rw [if_neg (by rw [h]; simp), List.map_append]
  rfl

theorem any_name_setCol_existing (df : DF) (m : String) (v : List Cell)
    (n : String) (h : df.any (fun c => c.1 == m) = true) :
    (setCol df m v).any (fun c => c.1 == n) = df.any (fun c => c.1 == n) := by
  unfold setCol
  rw [if_pos h, List.any_map]
  congr 1
  funext c
  show ((if c.1 == m then (c.1, v) else c).1 == n) = (c.1 == n)
  split <;> rfl

/-- C9 (amended): `create_met_file` does not mutate `tasmax_df` and
`hurs_df`, but it converts the `date` column of `tasmin_df`, `pr_df` and
`rsds_df` in place and appends a new `value_mj` column to `rsds_df` (the
radiation values times 0.0864), so those three inputs are written to. -/
theorem C9_input_mutation (tasmax tasmin pr rsds hurs : DF)
    (htm : tasmin.any (fun c => c.1 == "date") = true)
    (hpr : pr.any (fun c => c.1 == "date") = true)
    (hrd : rsds.any (fun c => c.1 == "date") = true)
    (hrv : rsds.any (fun c => c.1 == "value_mj") = false) :
    (create_met_file_inputs tasmax tasmin pr rsds hurs).1 = tasmax
      ∧ (create_met_file_inputs tasmax tasmin pr rsds hurs).2.2.2.2 = hurs
      ∧ (create_met_file_inputs tasmax tasmin pr rsds hurs).2.1
          = setCol tasmin "date" ((getCol tasmin "date").map toDatetime)
      ∧ colNames (create_met_file_inputs tasmax tasmin pr rsds hurs).2.1
          = colNames tasmin
      ∧ colNames (create_met_file_inputs tasmax tasmin pr rsds hurs).2.2.1
          = colNames pr
      ∧ colNames (create_met_file_inputs tasmax tasmin pr rsds hurs).2.2.2.1
          = colNames rsds ++ ["value_mj"] := by
  refine ⟨rfl, rfl, rfl, ?_, ?_, ?_⟩
  · exact colNames_setCol_existing tasmin "date" _ htm
  · exact colNames_setCol_existing pr "date" _ hpr
  · show colNames (setCol (setCol rsds "date" _) "value_mj" _) = _
    rw [colNames_setCol_new _ _ _ (by
      rw [any_name_setCol_existing rsds "date" _ "value_mj" hrd]
      exact hrv)]
    rw [colNames_setCol_existing rsds "date" _ hrd]

/-- Witness for C9 (amended) on concrete one-row frames. -/
theorem C9_input_mutation_witness :
    colNames (create_met_file_inputs
        [("date", [Cell.dt 0]), ("value", [Cell.num 30])]
        [("date", [Cell.rawDate 0]), ("value", [Cell.num 10])]
        [("date", [Cell.dt 0]), ("value", [Cell.num 5])]
        [("date", [Cell.dt 0]), ("value", [Cell.num 200])]
        [("date", [Cell.dt 0]), ("value", [Cell.num 80])]).2.2.2.1
      = ["date", "value", "value_mj"] := by
  have h := C9_input_mutation
    [("date", [Cell.dt 0]), ("value", [Cell.num 30])]
    [("date", [Cell.rawDate 0]), ("value", [Cell.num 10])]
    [("date", [Cell.dt 0]), ("value", [Cell.num 5])]
    [("date", [Cell.dt 0]), ("value", [Cell.num 200])]
    [("date", [Cell.dt 0]), ("value", [Cell.num 80])]
    (by decide) (by decide) (by decide) (by decide)
  rw [h.2.2.2.2.2]
  rfl

/-- Counterexample to C9 as stated: with concrete one-row inputs, the
post-call `rsds_df` differs from its pre-call state (it gained a
`value_mj` column), and the post-call `tasmin_df` differs as well (its raw
date was converted in place). -/
theorem C9_input_mutation_counterexample :
    ¬ ((create_met_file_inputs
          [("date", [Cell.dt 0]), ("value", [Cell.num 30])]
          [("date", [Cell.rawDate 0]), ("value", [Cell.num 10])]
          [("date", [Cell.dt 0]), ("value", [Cell.num 5])]
          [("date", [Cell.dt 0]), ("value", [Cell.num 200])]
          [("date", [Cell.dt 0]), ("value", [Cell.num 80])]).2.2.2.1
        = [("date", [Cell.dt 0]), ("value", [Cell.num 200])])
      ∧ ¬ ((create_met_file_inputs
          [("date", [Cell.dt 0]), ("value", [Cell.num 30])]
          [("date", [Cell.rawDate 0]), ("value", [Cell.num 10])]
          [("date", [Cell.dt 0]), ("value", [Cell.num 5])]
          [("date", [Cell.dt 0]), ("value", [Cell.num 200])]
          [("date", [Cell.dt 0]), ("value", [Cell.num 80])]).2.1
        = [("date", [Cell.rawDate 0]), ("value", [Cell.num 10])]) := by
  refine ⟨by decide, by decide⟩

end Anameka
